import Mathlib

/-!
Verification of the JsonAsAsset material-graph reconstruction engine
(`Source/JsonAsAsset/Private/Utilities/EditorGraph/MaterialGraph_Interface.cpp`).

The development shallowly embeds the two-pass import pipeline:
partitioning of raw JSON export records (`FindEditorOnlyData`), placeholder
creation (`ConstructExpressions` / `CreateEmptyExpression`), and the wiring /
property-population pass (`PropagateExpressions`, `CreateExpressionInput`,
`PopulateExpressionInput`, `GetExpressionName`), together with the external
asset resolution blocks (direct load, `HandleReference` recovery hook,
notification).

Modelling conventions:
* JSON numbers are modelled as `Int` (every numeric literal exercised by the
  properties under verification is integral).
* `FName` is modelled as `String`; `NAME_None` is the empty string.
* Unreal's `TMap` is modelled as an association list with `TMap::Add`
  replace-or-append semantics.
* Node instances are identified by their `Name`; a `Connection`'s
  `Expression` pointer is modelled as the `Option`al name of the target node
  (the source stores the pointer obtained from `CreatedExpressionMap`, which
  is keyed by exactly that name).
* Engine collaborators that live outside the repository (class lookup for
  `FindObject`, `StaticLoadObject`, `HandleReference`, reflection enum
  tables) are parameters of an `Env` record.
* The per-kind dispatch is embedded for the node kinds exercised by the
  claims (Add, Constant, QualitySwitch, RuntimeVirtualTextureSample, the
  TextureSample base handler); the remaining kinds of the ~120-branch
  dispatch follow the identical access patterns and do not alter the shape
  of any statement proved here.
-/

/-- A JSON value as produced by `FJsonValue`; numbers are modelled as `Int`. -/
inductive JValue where
  | jnull : JValue
  | jbool (b : Bool) : JValue
  | jnum (n : Int) : JValue
  | jstr (s : String) : JValue
  | jarr (xs : List JValue) : JValue
  | jobj (fields : List (String × JValue)) : JValue

/-- An `FJsonObject`: its field map, in serialization order. -/
abbrev JObject := List (String × JValue)

/-- First field of the object with the given key, like `FJsonObject::TryGetField`. -/
def jlookup (o : JObject) (k : String) : Option JValue :=
  match o with
  | [] => none
  | (k2, v) :: rest => if k2 = k then some v else jlookup rest k

/-- `FJsonObject::TryGetObjectField`: present and of object type. -/
def tryGetObjectField (o : JObject) (k : String) : Option JObject :=
  match jlookup o k with
  | some (JValue.jobj f) => some f
  | _ => none

/-- `FJsonObject::TryGetStringField`: present and of string type. -/
def tryGetStringField (o : JObject) (k : String) : Option String :=
  match jlookup o k with
  | some (JValue.jstr s) => some s
  | _ => none

/-- `FJsonObject::TryGetNumberField`: present and of number type. -/
def tryGetNumberField (o : JObject) (k : String) : Option Int :=
  match jlookup o k with
  | some (JValue.jnum n) => some n
  | _ => none

/-- `FJsonObject::TryGetBoolField`: present and of bool type. -/
def tryGetBoolField (o : JObject) (k : String) : Option Bool :=
  match jlookup o k with
  | some (JValue.jbool b) => some b
  | _ => none

/-- `FJsonObject::TryGetArrayField`: present and of array type. -/
def tryGetArrayField (o : JObject) (k : String) : Option (List JValue) :=
  match jlookup o k with
  | some (JValue.jarr xs) => some xs
  | _ => none

/-- `FJsonObject::GetStringField`: the engine logs and yields the empty string
when the field is absent or not a string. -/
def getStringField (o : JObject) (k : String) : String :=
  (tryGetStringField o k).getD ""

/-- `FJsonObject::GetObjectField` collapsed to an empty object on the failure
path (the source would dereference a null shared pointer there; the records
under verification always carry the field). -/
def objOr (o : JObject) (k : String) : JObject :=
  (tryGetObjectField o k).getD []

/-- Assign-if-present pattern `if (TryGetNumberField(k, v)) field = v;`. -/
def numOr (o : JObject) (k : String) (prior : Int) : Int :=
  (tryGetNumberField o k).getD prior

/-- Assign-if-present pattern for bool fields. -/
def boolOr (o : JObject) (k : String) (prior : Bool) : Bool :=
  (tryGetBoolField o k).getD prior

/-- Assign-if-present pattern for string fields. -/
def strOr (o : JObject) (k : String) (prior : String) : String :=
  (tryGetStringField o k).getD prior

/-- `FJsonValue::AsObject` collapsed to the empty object on non-object values
(the source dereferences the null result in that case; array entries under
verification are objects). -/
def asObjectD (v : JValue) : JObject :=
  match v with
  | JValue.jobj f => f
  | _ => []

/-- `TMap::Find` by key: first entry wins (keys are unique under `tmapAdd`). -/
def tmapFind {α : Type} (m : List (String × α)) (k : String) : Option α :=
  match m with
  | [] => none
  | (k2, v) :: rest => if k2 = k then some v else tmapFind rest k

/-- `TMap::Contains`. -/
def containsKey {α : Type} (m : List (String × α)) (k : String) : Bool :=
  (tmapFind m k).isSome

/-- `TMap::Add`: replace the value at an existing key, else append. -/
def tmapAdd {α : Type} (m : List (String × α)) (k : String) (v : α) : List (String × α) :=
  match m with
  | [] => [(k, v)]
  | (k2, v2) :: rest => if k2 = k then (k2, v) :: rest else (k2, v2) :: tmapAdd rest k v

/-- Variant constant payload of an `FMaterialInput` (color / scalar / vector),
`unset` when the bag carried no literal. -/
inductive MaterialConstant where
  | unset : MaterialConstant
  | color (r g b a : Int) : MaterialConstant
  | scalar (v : Int) : MaterialConstant
  | vector (x y z : Int) : MaterialConstant
deriving DecidableEq, Repr

/-- `FExpressionInput` (with the `FMaterialInput` constant-fallback extension
flattened in): `Expression` is the optional name of the target node. -/
structure FExpressionInput where
  Expression : Option String := none
  OutputIndex : Int := 0
  InputName : String := ""
  Mask : Int := 0
  MaskR : Int := 0
  MaskG : Int := 0
  MaskB : Int := 0
  MaskA : Int := 0
  UseConstant : Bool := false
  Constant : MaterialConstant := MaterialConstant.unset
deriving DecidableEq, Repr

/-- Number of entries of the fixed-size `Inputs` array of a quality switch
node (`EMaterialQualityLevel::Num`, an engine constant). -/
def qualityLevelNum : Nat := 4

/-- A `UMaterialExpression` instance, flattened over the node kinds embedded
here. `ClassName` is the realized `UClass` (fixed at creation); the remaining
fields default to the engine's zero-initialized values. -/
structure MaterialExpression where
  Name : String
  ClassName : String
  A : FExpressionInput := {}
  B : FExpressionInput := {}
  Default : FExpressionInput := {}
  Coordinates : FExpressionInput := {}
  WorldPosition : FExpressionInput := {}
  MipValue : FExpressionInput := {}
  TextureObject : FExpressionInput := {}
  CoordinatesDX : FExpressionInput := {}
  CoordinatesDY : FExpressionInput := {}
  AutomaticViewMipBiasValue : FExpressionInput := {}
  Inputs : List FExpressionInput := List.replicate qualityLevelNum {}
  ConstA : Int := 0
  ConstB : Int := 0
  R : Int := 0
  ConstCoordinate : Int := 0
  ConstMipValue : Int := 0
  MaterialType : Int := 0
  MipValueMode : Int := 0
  TextureAddressMode : Int := 0
  SamplerSource : Int := 0
  bSinglePhysicalSpace : Bool := false
  bAdaptive : Bool := false
  AutomaticViewMipBias : Bool := false
  VirtualTexture : Option String := none
  MaterialExpressionEditorX : Int := 0
  MaterialExpressionEditorY : Int := 0
  Desc : String := ""
deriving DecidableEq, Repr

instance : Inhabited MaterialExpression := ⟨{ Name := "", ClassName := "" }⟩

/-- All `FExpressionInput`-typed fields of a node, i.e. its Connections. -/
def nodeConnections (n : MaterialExpression) : List FExpressionInput :=
  n.A :: n.B :: n.Default :: n.Coordinates :: n.WorldPosition :: n.MipValue ::
  n.TextureObject :: n.CoordinatesDX :: n.CoordinatesDY ::
  n.AutomaticViewMipBiasValue :: n.Inputs

/-- `FImportData`: the kind tag, the declaring scope, and the raw record. -/
structure FImportData where
  ExType : String
  Outer : String
  Json : JObject

/-- Map from node name to its created placeholder (`CreatedExpressionMap`). -/
abbrev TMapExpr := List (String × MaterialExpression)

/-- External collaborators of the core (engine reflection, asset loading, the
missing-reference recovery hook) together with the factory's two name lists,
which live in the plugin's header. Modelled from the spec: the Node Factory
probes a small ordered set of module namespaces, degrades to a best-effort
generic construction, and the Asset Loader / recovery hook are opaque
synchronous services. -/
structure Env where
  findClassEngine : String → Bool
  findClassLandscape : String → Bool
  findClassInterchange : String → Bool
  genericConstructs : Bool
  loadAsset : String → Option String
  loadAssetRetry : String → Option String
  handleReference : String → Bool
  IgnoredExpressions : List String
  Expressions : List String

/-- Modelled from the spec: `GetExportNameOfSubobject` (defined outside the
provided sources) extracts the export name from a Class-qualified reference
string such as `MaterialExpressionConstant` followed by the name in
apostrophes; with no apostrophe present the splits fail and the name stays
empty. -/
def getExportNameOfSubobject (s : String) : String :=
  let cs := s.toList
  if cs.contains '\x27' then
    String.mk ((cs.dropWhile (fun c => !(c = '\x27'))).tail.takeWhile (fun c => !(c = '\x27')))
  else ""

/-- `GetExpressionName`: read the wrapper object at `overrideKey` (the header
default is the `Expression` field) and extract the referenced export's name
from its `ObjectName`; a missing or null wrapper falls back to the legacy
flat `ExpressionName` string field. -/
def getExpressionName (props : JObject) (overrideKey : String) : String :=
  match jlookup props overrideKey with
  | none => getStringField props "ExpressionName"
  | some JValue.jnull => getStringField props "ExpressionName"
  | some (JValue.jobj o) =>
    match tryGetStringField o "ObjectName" with
    | some objName => getExportNameOfSubobject objName
    | none => ""
  | some _ => ""

/-- `PopulateExpressionInput`: builds the Connection for an already-resolved
target. The mask / slot fields come from the input's own sub-object; for the
`Color` / `Scalar` / `Vector` variants the `UseConstant` flag and `Constant`
literal are additionally read from that same sub-object (the color and vector
literals are decoded from their `R`,`G`,`B`,`A` / `X`,`Y`,`Z` member fields,
modelled on integer channels). -/
def populateExpressionInput (j : JObject) (targetName : String) (ty : String) : FExpressionInput :=
  { Expression := some targetName
    OutputIndex := numOr j "OutputIndex" 0
    InputName := strOr j "InputName" ""
    Mask := numOr j "Mask" 0
    MaskR := numOr j "MaskR" 0
    MaskG := numOr j "MaskG" 0
    MaskB := numOr j "MaskB" 0
    MaskA := numOr j "MaskA" 0
    UseConstant :=
      if ty = "Color" || ty = "Scalar" || ty = "Vector" then boolOr j "UseConstant" false
      else false
    Constant :=
      if ty = "Color" then
        match tryGetObjectField j "Constant" with
        | some c => MaterialConstant.color (numOr c "R" 0) (numOr c "G" 0) (numOr c "B" 0) (numOr c "A" 0)
        | none => MaterialConstant.unset
      else if ty = "Scalar" then
        match tryGetNumberField j "Constant" with
        | some v => MaterialConstant.scalar v
        | none => MaterialConstant.unset
      else if ty = "Vector" then
        match tryGetObjectField j "Constant" with
        | some c => MaterialConstant.vector (numOr c "X" 0) (numOr c "Y" 0) (numOr c "Z" 0)
        | none => MaterialConstant.unset
      else MaterialConstant.unset }

/-- `CreateExpressionInput`: look up the sub-object at `key`, resolve the
referenced name, and populate a Connection only when `CreatedExpressionMap`
contains it; otherwise return a default-constructed `FExpressionInput`. -/
def createExpressionInput (props : JObject) (m : TMapExpr) (key : String) : FExpressionInput :=
  match tryGetObjectField props key with
  | some sub =>
    let n := getExpressionName sub "Expression"
    if containsKey m n then populateExpressionInput sub n "Default" else {}
  | none => {}

/-- The explicit inline wiring pattern used by the base-kind handlers: like
`createExpressionInput`, but an unresolved reference leaves the field's prior
value untouched instead of resetting it. -/
def gatedInput (props : JObject) (m : TMapExpr) (key : String) (prior : FExpressionInput) : FExpressionInput :=
  match tryGetObjectField props key with
  | some sub =>
    let n := getExpressionName sub "Expression"
    if containsKey m n then populateExpressionInput sub n "Default" else prior
  | none => prior

/-- Modelled from the spec: the Material-level variant wiring calls (the
material attribute inputs populated in `Material.cpp`, outside the provided
sources) follow the `CreateExpressionInput` resolution pattern with the
variant string forwarded to `PopulateExpressionInput`. -/
def wireInputVariant (props : JObject) (m : TMapExpr) (key : String) (ty : String) : FExpressionInput :=
  match tryGetObjectField props key with
  | some sub =>
    let n := getExpressionName sub "Expression"
    if containsKey m n then populateExpressionInput sub n ty else {}
  | none => {}

/-- Modelled from the spec: the host reflection service resolves an enum name
against its name-to-value table; an unrecognized name yields the failure
sentinel `INDEX_NONE` (-1), which the caller casts and assigns. -/
def getValueByNameString (table : List (String × Int)) (name : String) : Int :=
  (tmapFind table name).getD (-1)

/-- The `if (TryGetStringField(key, s)) field = static_cast(lookup(s));`
pattern used for every string-keyed enum field. -/
def enumSet (props : JObject) (key : String) (table : List (String × Int)) (prior : Int) : Int :=
  match tryGetStringField props key with
  | some s => getValueByNameString table s
  | none => prior

/-- Modelled from the spec: engine enum name table for
`ERuntimeVirtualTextureMaterialType` (representative entries). -/
def rvtMaterialTypeTable : List (String × Int) :=
  [("BaseColor", 0), ("BaseColor_Normal_Roughness", 1), ("BaseColor_Normal_Specular", 2),
   ("BaseColor_Normal_Specular_YCoCg", 3), ("BaseColor_Normal_Specular_Mask_YCoCg", 4),
   ("WorldHeight", 5)]

/-- Modelled from the spec: `ERuntimeVirtualTextureMipValueMode` name table. -/
def rvtMipValueModeTable : List (String × Int) :=
  [("None", 0), ("MipLevel", 1), ("MipBias", 2)]

/-- Modelled from the spec: `ERuntimeVirtualTextureTextureAddressMode` name table. -/
def rvtTextureAddressModeTable : List (String × Int) :=
  [("Wrap", 0), ("Clamp", 1)]

/-- Modelled from the spec: `ETextureMipValueMode` name table. -/
def textureMipValueModeTable : List (String × Int) :=
  [("TMVM_None", 0), ("TMVM_MipLevel", 1), ("TMVM_MipBias", 2), ("TMVM_Derivative", 3)]

/-- Modelled from the spec: `ESamplerSourceMode` name table. -/
def samplerSourceTable : List (String × Int) :=
  [("SSM_FromTextureAsset", 0), ("SSM_Wrap_WorldGroupSettings", 1),
   ("SSM_Clamp_WorldGroupSettings", 2)]

/-- Modelled from the spec: the realized classes for which
`Cast(UMaterialExpressionTextureSample)` succeeds (the texture-sample
inheritance chain of the engine). -/
def isTextureSampleClass (c : String) : Bool :=
  c = "MaterialExpressionTextureSample" ||
  c = "MaterialExpressionTextureSampleParameter" ||
  c = "MaterialExpressionTextureSampleParameter2D" ||
  c = "MaterialExpressionTextureSampleParameterSubUV" ||
  c = "MaterialExpressionTextureSampleParameterCube" ||
  c = "MaterialExpressionTextureObjectParameter" ||
  c = "MaterialExpressionCurveAtlasRowParameter"

/-- Events observable from one external-reference resolution block. -/
structure ResolveResult where
  field : Option String
  hookCalls : List String
  notifications : List String
  loadCalls : Nat
deriving DecidableEq, Repr

/-- Modelled from the spec: the `LoadObject` helper performs a direct load by
the descriptor's `ObjectPath`. -/
def loadByDescriptor (load : String → Option String) (descriptor : JObject) : Option String :=
  load (getStringField descriptor "ObjectPath")

/-- `FString::Split` on the first dot, keeping the left part; when no dot is
present the split fails and the (fresh) output string stays empty. -/
def splitLeftAtDot (s : String) : String :=
  if s.toList.contains '.' then String.mk (s.toList.takeWhile (fun c => !(c = '.'))) else ""

/-- The external-reference block of `MaterialExpressionMaterialFunctionCall`
and `MaterialExpressionCollectionParameter`: direct load; on failure extract
the short identifier, call `HandleReference`; on hook success retry the load
once, on hook failure emit the `... Missing: ...` notification and leave the
field unset. -/
def resolveWithRecovery (env : Env) (descriptor : JObject) (label : String) : ResolveResult :=
  match loadByDescriptor env.loadAsset descriptor with
  | some a => { field := some a, hookCalls := [], notifications := [], loadCalls := 1 }
  | none =>
    let shortId := splitLeftAtDot (getStringField descriptor "ObjectPath")
    if env.handleReference shortId then
      { field := loadByDescriptor env.loadAssetRetry descriptor
        hookCalls := [shortId], notifications := [], loadCalls := 2 }
    else
      { field := none, hookCalls := [shortId]
        notifications := [label ++ " Missing: " ++ shortId], loadCalls := 1 }

/-- The external-reference block of the runtime-virtual-texture sample
handler: direct load; on failure emit the notification immediately — the
recovery hook is never invoked and the load is not retried. -/
def resolveVirtualTexture (env : Env) (descriptor : JObject) : ResolveResult :=
  match loadByDescriptor env.loadAsset descriptor with
  | some a => { field := some a, hookCalls := [], notifications := [], loadCalls := 1 }
  | none =>
    let shortId := splitLeftAtDot (getStringField descriptor "ObjectPath")
    { field := none, hookCalls := []
      notifications := ["Virtual Texture Sample Missing: " ++ shortId], loadCalls := 1 }

/-- Kind handler for `MaterialExpressionAdd`. -/
def handleAdd (props : JObject) (m : TMapExpr) (node : MaterialExpression) : MaterialExpression :=
  { node with
    A := createExpressionInput props m "A"
    B := createExpressionInput props m "B"
    ConstA := numOr props "ConstA" node.ConstA
    ConstB := numOr props "ConstB" node.ConstB }

/-- Kind handler for `MaterialExpressionConstant`. -/
def handleConstant (props : JObject) (node : MaterialExpression) : MaterialExpression :=
  { node with R := numOr props "R" node.R }

/-- The `Inputs` array loop of the quality-switch handler: one entry per JSON
array element, the running index `i` incremented for every element, a write
recorded only when the referenced name resolves. -/
def qsWritesAux (m : TMapExpr) (i : Nat) : List JValue → List (Nat × FExpressionInput)
  | [] => []
  | v :: rest =>
    let obj := asObjectD v
    let n := getExpressionName obj "Expression"
    if containsKey m n then (i, populateExpressionInput obj n "Default") :: qsWritesAux m (i + 1) rest
    else qsWritesAux m (i + 1) rest

/-- Indices at which the quality-switch loop writes into the fixed-size
destination array. -/
def qsWriteIndices (m : TMapExpr) (arr : List JValue) : List Nat :=
  (qsWritesAux m 0 arr).map (fun w => w.1)

/-- Apply the loop's writes to the destination array; an out-of-range index
is undefined behaviour in the source (`QualitySwitch->Inputs[i]` has no
bounds check) and is modelled as a dropped write — `qsWriteIndices` records
the attempted indices for the safety statement. -/
def qsApply (m : TMapExpr) (inputs : List FExpressionInput) (arr : List JValue) : List FExpressionInput :=
  (qsWritesAux m 0 arr).foldl (fun acc w => acc.set w.1 w.2) inputs

/-- Kind handler for `MaterialExpressionQualitySwitch`. -/
def handleQualitySwitch (props : JObject) (m : TMapExpr) (node : MaterialExpression) : MaterialExpression :=
  let node := { node with Default := createExpressionInput props m "Default" }
  match tryGetArrayField props "Inputs" with
  | some arr => { node with Inputs := qsApply m node.Inputs arr }
  | none => node

/-- Kind handler shared by `MaterialExpressionRuntimeVirtualTextureSample`
and `MaterialExpressionRuntimeVirtualTextureSampleParameter`. -/
def handleRVTSample (env : Env) (props : JObject) (m : TMapExpr) (node : MaterialExpression) : MaterialExpression :=
  { node with
    Coordinates := createExpressionInput props m "Coordinates"
    WorldPosition := createExpressionInput props m "WorldPosition"
    MipValue := createExpressionInput props m "MipValue"
    VirtualTexture :=
      match tryGetObjectField props "VirtualTexture" with
      | some vt => (resolveVirtualTexture env vt).field
      | none => node.VirtualTexture
    MaterialType := enumSet props "MaterialType" rvtMaterialTypeTable node.MaterialType
    bSinglePhysicalSpace := boolOr props "bSinglePhysicalSpace" node.bSinglePhysicalSpace
    bAdaptive := boolOr props "bAdaptive" node.bAdaptive
    MipValueMode := enumSet props "MipValueMode" rvtMipValueModeTable node.MipValueMode
    TextureAddressMode := enumSet props "TextureAddressMode" rvtTextureAddressModeTable node.TextureAddressMode }

/-- The texture-sample base handler, run after the kind-specific handler for
every node whose realized class is in the texture-sample chain. -/
def textureSampleBase (props : JObject) (m : TMapExpr) (node : MaterialExpression) : MaterialExpression :=
  { node with
    MipValueMode := enumSet props "MipValueMode" textureMipValueModeTable node.MipValueMode
    SamplerSource := enumSet props "SamplerSource" samplerSourceTable node.SamplerSource
    AutomaticViewMipBias := boolOr props "AutomaticViewMipBias" node.AutomaticViewMipBias
    ConstCoordinate := numOr props "ConstCoordinate" node.ConstCoordinate
    ConstMipValue := numOr props "ConstMipValue" node.ConstMipValue
    Coordinates := gatedInput props m "Coordinates" node.Coordinates
    TextureObject := gatedInput props m "TextureObject" node.TextureObject
    MipValue := gatedInput props m "MipValue" node.MipValue
    CoordinatesDX := gatedInput props m "CoordinatesDX" node.CoordinatesDX
    CoordinatesDY := gatedInput props m "CoordinatesDY" node.CoordinatesDY
    AutomaticViewMipBiasValue := gatedInput props m "AutomaticViewMipBiasValue" node.AutomaticViewMipBiasValue }

/-- The kind-specific dispatch, restricted to the embedded kinds; kinds
without an embedded branch leave the node untouched, exactly as a kind tag
matching no branch of the source's dispatch chain does. -/
def dispatchKind (env : Env) (props : JObject) (m : TMapExpr) (node : MaterialExpression) (ty : String) : MaterialExpression :=
  let node := if ty = "MaterialExpressionAdd" then handleAdd props m node else node
  let node := if ty = "MaterialExpressionConstant" then handleConstant props node else node
  let node := if ty = "MaterialExpressionQualitySwitch" then handleQualitySwitch props m node else node
  let node :=
    if ty = "MaterialExpressionRuntimeVirtualTextureSample" ||
       ty = "MaterialExpressionRuntimeVirtualTextureSampleParameter" then
      handleRVTSample env props m node
    else node
  node

/-- The shared `MaterialGraphNode_ExpressionWrapper` step (subset of the
editor-agnostic fields: canvas position and description; the remaining
wrapper fields follow the identical assign-if-present pattern). -/
def wrapNode (props : JObject) (node : MaterialExpression) : MaterialExpression :=
  { node with
    MaterialExpressionEditorX := numOr props "MaterialExpressionEditorX" node.MaterialExpressionEditorX
    MaterialExpressionEditorY := numOr props "MaterialExpressionEditorY" node.MaterialExpressionEditorY
    Desc := strOr props "Desc" node.Desc }

/-- `CreateEmptyExpression`: ignored kinds return null with no warning; a
kind outside the supported-`Expressions` list records a warning; the class is
probed across the Engine, Landscape and InterchangeImport namespaces; with no
class found, `NewObject` is invoked with a null class — modelled from the
spec as a best-effort generic construction that yields a base
`MaterialExpression` instance when `env.genericConstructs`, and null
otherwise. -/
def createEmptyExpression (env : Env) (name ty : String) : Option MaterialExpression × List String :=
  if env.IgnoredExpressions.contains ty then (none, [])
  else
    let warns := if env.Expressions.contains ty then []
                 else ["Missing support for expression type: " ++ ty]
    let cls : Option String :=
      if env.findClassEngine ty then some ty
      else if env.findClassLandscape ty then some ty
      else if env.findClassInterchange ty then some ty
      else none
    match cls with
    | some c => (some { Name := name, ClassName := c }, warns)
    | none =>
      (if env.genericConstructs then some { Name := name, ClassName := "MaterialExpression" } else none,
       warns)

/-- One partition result: the captured editor-metadata record, the export
index, and the declaration-ordered name list. -/
structure PartitionResult where
  EditorOnlyData : Option JObject
  OutExports : List (String × FImportData)
  ExpressionNames : List String

/-- Does this record's `Type` equal the unit kind name with the
`EditorOnlyData` suffix? -/
def isEditorOnlyRec (ty : String) (o : JObject) : Bool :=
  getStringField o "Type" = ty ++ "EditorOnlyData"

/-- The loop body accumulator of `FindEditorOnlyData`. -/
def partitionStep (ty outer : String) (acc : PartitionResult) (o : JObject) : PartitionResult :=
  if isEditorOnlyRec ty o then { acc with EditorOnlyData := some o }
  else
    let name := getStringField o "Name"
    { acc with
      ExpressionNames := acc.ExpressionNames ++ [name]
      OutExports := tmapAdd acc.OutExports name ⟨getStringField o "Type", outer, o⟩ }

/-- Tail of `FindEditorOnlyData` over the remaining records. -/
def partitionAux (ty outer : String) (acc : PartitionResult) : List JObject → PartitionResult
  | [] => acc
  | o :: rest => partitionAux ty outer (partitionStep ty outer acc o) rest

/-- `FindEditorOnlyData`: partition the import unit's records into the single
editor-metadata record and the name-indexed export table plus the
declaration-ordered name sequence. -/
def findEditorOnlyData (ty outer : String) (records : List JObject) : PartitionResult :=
  partitionAux ty outer ⟨none, [], []⟩ records

/-- The placeholder `ConstructExpressions` would create for one name: the
export entry matching both the name and the outer scope, fed to the factory. -/
def createdOf (env : Env) (outer : String) (exports : List (String × FImportData)) (name : String) : Option MaterialExpression :=
  match exports.find? (fun p => p.1 = name && p.2.Outer = outer) with
  | some p => (createEmptyExpression env name p.2.ExType).1
  | none => none

/-- The warnings the factory records while `ConstructExpressions` processes
one name. -/
def factoryWarnings (env : Env) (outer : String) (exports : List (String × FImportData)) (n : String) : List String :=
  match exports.find? (fun p => p.1 = n && p.2.Outer = outer) with
  | some p => (createEmptyExpression env n p.2.ExType).2
  | none => []

/-- Loop of `ConstructExpressions` with accumulators. -/
def constructAux (env : Env) (outer : String) (exports : List (String × FImportData)) :
    List String → TMapExpr → List String → TMapExpr × List String
  | [], m, ws => (m, ws)
  | n :: rest, m, ws =>
    match exports.find? (fun p => p.1 = n && p.2.Outer = outer) with
    | none => constructAux env outer exports rest m ws
    | some p =>
      match (createEmptyExpression env n p.2.ExType).1 with
      | none => constructAux env outer exports rest m (ws ++ (createEmptyExpression env n p.2.ExType).2)
      | some ex => constructAux env outer exports rest (tmapAdd m n ex) (ws ++ (createEmptyExpression env n p.2.ExType).2)

/-- `ConstructExpressions`: first pass, creating all placeholders by name;
null factory results are skipped. Warnings recorded by the factory are
collected alongside. -/
def constructExpressions (env : Env) (outer : String) (names : List String) (exports : List (String × FImportData)) : TMapExpr × List String :=
  constructAux env outer exports names [] []

/-- Does the optional Outer-scope filter of pass 2 skip this record? -/
def outerMismatch (d : FImportData) (parentName : String) : Bool :=
  match tryGetStringField d.Json "Outer" with
  | some o => !(o = parentName)
  | none => false

/-- Loop of `PropagateExpressions`: per name, fetch the export, the created
placeholder, apply the Outer filter, run the kind dispatch then the base-kind
handlers then the shared wrapper, attach (unless importing a subgraph) and
store the populated node back in the map. -/
def propagateAux (env : Env) (exports : List (String × FImportData)) (bCheckOuter : Bool) (parentName : String) (bSubgraph : Bool) :
    List String → TMapExpr → List MaterialExpression → List MaterialExpression × TMapExpr
  | [], m, acc => (acc, m)
  | name :: rest, m, acc =>
    match tmapFind exports name with
    | none => propagateAux env exports bCheckOuter parentName bSubgraph rest m acc
    | some d =>
      match tmapFind m name with
      | none => propagateAux env exports bCheckOuter parentName bSubgraph rest m acc
      | some node =>
        if bCheckOuter && outerMismatch d parentName then
          propagateAux env exports bCheckOuter parentName bSubgraph rest m acc
        else
          let props := objOr d.Json "Properties"
          let n1 := dispatchKind env props m node d.ExType
          let n2 := if isTextureSampleClass n1.ClassName then textureSampleBase props m n1 else n1
          let n3 := wrapNode props n2
          let acc2 := if bSubgraph then acc else acc ++ [n3]
          propagateAux env exports bCheckOuter parentName bSubgraph rest (tmapAdd m name n3) acc2

/-- `PropagateExpressions`: second pass over the original declaration order. -/
def propagateExpressions (env : Env) (exports : List (String × FImportData)) (bCheckOuter : Bool) (parentName : String) (bSubgraph : Bool) (names : List String) (m : TMapExpr) : List MaterialExpression × TMapExpr :=
  propagateAux env exports bCheckOuter parentName bSubgraph names m []

/-- One import unit's completed state. -/
structure GraphResult where
  EditorOnlyData : Option JObject
  Attached : List MaterialExpression
  FinalMap : TMapExpr
  Warnings : List String

/-- The full import pipeline over one record list: partition, create, wire,
attach. -/
def importGraph (env : Env) (ty outer : String) (records : List JObject) (bCheckOuter : Bool) (parentName : String) (bSubgraph : Bool) : GraphResult :=
  let pr := findEditorOnlyData ty outer records
  let cm := constructExpressions env outer pr.ExpressionNames pr.OutExports
  let pw := propagateExpressions env pr.OutExports bCheckOuter parentName bSubgraph pr.ExpressionNames cm.1
  { EditorOnlyData := pr.EditorOnlyData, Attached := pw.1, FinalMap := pw.2, Warnings := cm.2 }

/-- The full import pipeline with the create pass run over a caller-chosen
order while pass 2 keeps the original declaration order (the permutation
experiment of the order-independence property). -/
def importGraphCreateOrder (env : Env) (ty outer : String) (records : List JObject) (bCheckOuter : Bool) (parentName : String) (bSubgraph : Bool) (createOrder : List String) : GraphResult :=
  let pr := findEditorOnlyData ty outer records
  let cm := constructExpressions env outer createOrder pr.OutExports
  let pw := propagateExpressions env pr.OutExports bCheckOuter parentName bSubgraph pr.ExpressionNames cm.1
  { EditorOnlyData := pr.EditorOnlyData, Attached := pw.1, FinalMap := pw.2, Warnings := cm.2 }

/-- The name `CreateExpressionInput` would try to resolve at `key` (empty
when the sub-object is absent). -/
def inputTargetName (props : JObject) (key : String) : String :=
  match tryGetObjectField props key with
  | some sub => getExpressionName sub "Expression"
  | none => ""

/-- A Connection points only into the given created-node map. -/
def goodInput (m : TMapExpr) (i : FExpressionInput) : Prop :=
  ∀ t, i.Expression = some t → containsKey m t = true

/-- Every Connection of the node points only into the given map. -/
def goodNode (m : TMapExpr) (n : MaterialExpression) : Prop :=
  ∀ i ∈ nodeConnections n, goodInput m i

/-- Two maps agree on every lookup (the observational equivalence of
`TMap`). -/
def LookupEq (m m2 : TMapExpr) : Prop :=
  ∀ k, tmapFind m k = tmapFind m2 k

/-- First-of-two option choice (`a` wins when set). -/
def optOr {α : Type} (a b : Option α) : Option α :=
  match a with
  | some x => some x
  | none => b

/-- Does pass 2 attach the node of this name? (export found, placeholder
created, Outer filter passed.) -/
def shouldAttach (exports : List (String × FImportData)) (bCheckOuter : Bool) (parentName : String) (m : TMapExpr) (n : String) : Bool :=
  match tmapFind exports n with
  | none => false
  | some d => containsKey m n && !(bCheckOuter && outerMismatch d parentName)

/-- Concrete engine environment for the closed instances: every class probe
succeeds, external loads fail, the recovery hook declines. -/
def env9 : Env :=
  { findClassEngine := fun _ => true
    findClassLandscape := fun _ => false
    findClassInterchange := fun _ => false
    genericConstructs := true
    loadAsset := fun _ => none
    loadAssetRetry := fun _ => none
    handleReference := fun _ => false
    IgnoredExpressions := []
    Expressions := ["MaterialExpressionAdd", "MaterialExpressionConstant", "Add", "Constant"] }

/-- Scenario A, first record, exactly as written in the specification. -/
def recN1 : JObject :=
  [("Type", JValue.jstr "Add"), ("Name", JValue.jstr "N1"),
   ("Properties", JValue.jobj
     [("A", JValue.jobj [("ObjectName", JValue.jstr "N2")]), ("B", JValue.jobj []),
      ("ConstA", JValue.jnum 0), ("ConstB", JValue.jnum 5)])]

/-- Scenario A, second record, exactly as written in the specification. -/
def recN2 : JObject :=
  [("Type", JValue.jstr "Constant"), ("Name", JValue.jstr "N2"),
   ("Properties", JValue.jobj [("R", JValue.jnum 3)])]

/-- Scenario A, first record, re-encoded in the host serialization the code
actually parses: full kind tags and the reference wrapped as an `Expression`
object with a Class-qualified `ObjectName`. -/
def recN1A : JObject :=
  [("Type", JValue.jstr "MaterialExpressionAdd"), ("Name", JValue.jstr "N1"),
   ("Properties", JValue.jobj
     [("A", JValue.jobj
        [("Expression", JValue.jobj
           [("ObjectName", JValue.jstr "MaterialExpressionConstant\x27N2\x27")])]),
      ("B", JValue.jobj []),
      ("ConstA", JValue.jnum 0), ("ConstB", JValue.jnum 5)])]

/-- Scenario A, second record, with the full kind tag. -/
def recN2A : JObject :=
  [("Type", JValue.jstr "MaterialExpressionConstant"), ("Name", JValue.jstr "N2"),
   ("Properties", JValue.jobj [("R", JValue.jnum 3)])]

/-- Editor-metadata record of the partition scenario. -/
def recMeta : JObject :=
  [("Type", JValue.jstr "MaterialEditorOnlyData"), ("Name", JValue.jstr "MD"),
   ("Properties", JValue.jobj [])]

/-- First node record of the partition scenario. -/
def recD1 : JObject :=
  [("Type", JValue.jstr "MaterialExpressionConstant"), ("Name", JValue.jstr "D1"),
   ("Properties", JValue.jobj [("R", JValue.jnum 1)])]

/-- Second node record of the partition scenario. -/
def recD2 : JObject :=
  [("Type", JValue.jstr "MaterialExpressionConstant"), ("Name", JValue.jstr "D2"),
   ("Properties", JValue.jobj [("R", JValue.jnum 2)])]

/-- Third node record of the partition scenario. -/
def recD3 : JObject :=
  [("Type", JValue.jstr "MaterialExpressionConstant"), ("Name", JValue.jstr "D3"),
   ("Properties", JValue.jobj [("R", JValue.jnum 3)])]

/-- A default runtime-virtual-texture sample placeholder. -/
def rvtNode0 : MaterialExpression :=
  { Name := "X", ClassName := "MaterialExpressionRuntimeVirtualTextureSample" }

/-- The input sub-object of the variant-wiring counterexample: an unresolvable
reference together with literal `UseConstant` / `Constant` fields. -/
def c2sub : JObject :=
  [("Expression", JValue.jobj [("ObjectName", JValue.jstr "T\x27Missing\x27")]),
   ("UseConstant", JValue.jbool true), ("Constant", JValue.jnum 5)]

/-- Parent bag of the variant-wiring counterexample. -/
def c2props : JObject := [("X", JValue.jobj c2sub)]

/-- Created-node map of the variant-wiring counterexample (one unrelated
node). -/
def c2map : TMapExpr := [("N", rvtNode0)]

/-- Descriptor of a loadable external asset reference. -/
def c6desc : JObject := [("ObjectPath", JValue.jstr "/Game/Path/Asset.Asset")]

/-- One quality-switch `Inputs` array entry that resolves against `qsMap1`. -/
def qsResolvedEntry : JValue :=
  JValue.jobj [("Expression", JValue.jobj [("ObjectName", JValue.jstr "T\x27N\x27")])]

/-- Created-node map against which `qsResolvedEntry` resolves. -/
def qsMap1 : TMapExpr := [("N", rvtNode0)]

/-- Export table of the unsupported-kind counterexample: one record of the
unrecognized kind tag. -/
def exportsC4 : List (String × FImportData) :=
  [("N1", ⟨"UnknownFutureNode", "Outer0", []⟩)]

/-- Engine environment of the unsupported-kind counterexample: the kind tag is
outside the plugin's supported list, but the engine class probe finds a
class for it. -/
def envC4 : Env :=
  { findClassEngine := fun _ => true
    findClassLandscape := fun _ => false
    findClassInterchange := fun _ => false
    genericConstructs := true
    loadAsset := fun _ => none
    loadAssetRetry := fun _ => none
    handleReference := fun _ => false
    IgnoredExpressions := []
    Expressions := ["MaterialExpressionAdd"] }

/-! ## Basic lemmas about the `TMap` model -/

theorem tmapFind_tmapAdd {α : Type} (m : List (String × α)) (k x : String) (v : α) :
    tmapFind (tmapAdd m k v) x = if k = x then some v else tmapFind m x := by
  induction m with
  | nil =>
    by_cases hx : k = x <;> simp [tmapAdd, tmapFind, hx]
  | cons p rest ih =>
    obtain ⟨k2, v2⟩ := p
    by_cases h2 : k2 = k
    · subst h2
      by_cases hx : k2 = x <;> simp [tmapAdd, tmapFind, hx]
    · have hk : ¬ (k = k2) := fun h => h2 h.symm
      by_cases hx : k2 = x
      · subst hx
        simp [tmapAdd, tmapFind, h2, hk]
      · simp [tmapAdd, tmapFind, h2, hx, ih]

theorem containsKey_tmapAdd {α : Type} (m : List (String × α)) (k x : String) (v : α) :
    containsKey (tmapAdd m k v) x = if k = x then true else containsKey m x := by
  simp only [containsKey, tmapFind_tmapAdd]
  by_cases hx : k = x <;> simp [hx]

theorem containsKey_tmapAdd_of_mem {α : Type} {m : List (String × α)} {k : String}
    (v : α) (h : containsKey m k = true) (x : String) :
    containsKey (tmapAdd m k v) x = containsKey m x := by
  rw [containsKey_tmapAdd]
  by_cases hx : k = x
  · subst hx; simp [h]
  · simp [hx]

theorem optOr_assoc {α : Type} (a b c : Option α) :
    optOr (optOr a b) c = optOr a (optOr b c) := by
  cases a <;> simp [optOr]

theorem find?_append_opt {α : Type} (l1 l2 : List α) (p : α → Bool) :
    (l1 ++ l2).find? p = optOr (l1.find? p) (l2.find? p) := by
  induction l1 with
  | nil => simp [optOr]
  | cons a t ih =>
    by_cases ha : p a = true <;> simp [List.find?, ha, optOr, ih]

/-! ## Lemmas about well-targeted Connections -/

theorem goodInput_default (m : TMapExpr) : goodInput m {} := by
  intro t ht
  simp at ht

theorem goodInput_tmapAdd {m : TMapExpr} {i : FExpressionInput}
    (h : goodInput m i) (k : String) (v : MaterialExpression) :
    goodInput (tmapAdd m k v) i := by
  intro t ht
  rw [containsKey_tmapAdd]
  by_cases hx : k = t
  · simp [hx]
  · simp [hx, h t ht]

theorem goodInput_keysEq {m m2 : TMapExpr} {i : FExpressionInput}
    (h : ∀ x, containsKey m x = containsKey m2 x) (hg : goodInput m i) : goodInput m2 i := by
  intro t ht
  rw [← h t]
  exact hg t ht

theorem goodInput_populate {m : TMapExpr} {n : String} (j : JObject) (ty : String)
    (h : containsKey m n = true) : goodInput m (populateExpressionInput j n ty) := by
  intro t ht
  simp [populateExpressionInput] at ht
  subst ht
  exact h

theorem goodInput_createExpressionInput (p : JObject) (m : TMapExpr) (k : String) :
    goodInput m (createExpressionInput p m k) := by
  unfold createExpressionInput
  cases h : tryGetObjectField p k with
  | none => exact goodInput_default m
  | some sub =>
    by_cases hc : containsKey m (getExpressionName sub "Expression") = true
    · simp only [hc, if_true]
      exact goodInput_populate sub "Default" hc
    · simp only [Bool.not_eq_true] at hc
      simp only [hc, Bool.false_eq_true, if_false]
      exact goodInput_default m

theorem goodInput_gatedInput (p : JObject) (m : TMapExpr) (k : String)
    {prior : FExpressionInput} (hp : goodInput m prior) :
    goodInput m (gatedInput p m k prior) := by
  unfold gatedInput
  cases h : tryGetObjectField p k with
  | none => exact hp
  | some sub =>
    by_cases hc : containsKey m (getExpressionName sub "Expression") = true
    · simp only [hc, if_true]
      exact goodInput_populate sub "Default" hc
    · simp only [Bool.not_eq_true] at hc
      simp only [hc, Bool.false_eq_true, if_false]
      exact hp

theorem mem_set_or {α : Type} {l : List α} {i : Nat} {x y : α} (h : y ∈ l.set i x) :
    y ∈ l ∨ y = x := by
  induction l generalizing i with
  | nil => simp at h
  | cons a t ih =>
    cases i with
    | zero =>
      simp only [List.set, List.mem_cons] at h
      rcases h with h | h
      · exact Or.inr h
      · exact Or.inl (List.mem_cons_of_mem _ h)
    | succ j =>
      simp only [List.set, List.mem_cons] at h
      rcases h with h | h
      · exact Or.inl (h ▸ List.mem_cons_self _ _)
      · rcases ih h with h2 | h2
        · exact Or.inl (List.mem_cons_of_mem _ h2)
        · exact Or.inr h2

theorem mem_foldl_set (ws : List (Nat × FExpressionInput)) :
    ∀ (acc : List FExpressionInput) (y : FExpressionInput),
      y ∈ ws.foldl (fun a w => a.set w.1 w.2) acc → y ∈ acc ∨ ∃ w ∈ ws, y = w.2 := by
  induction ws with
  | nil =>
    intro acc y h
    simp only [List.foldl_nil] at h
    exact Or.inl h
  | cons w t ih =>
    intro acc y h
    simp only [List.foldl_cons] at h
    rcases ih _ y h with h2 | h2
    · rcases mem_set_or h2 with h3 | h3
      · exact Or.inl h3
      · exact Or.inr ⟨w, List.mem_cons_self _ _, h3⟩
    · obtain ⟨w2, hw2, hy⟩ := h2
      exact Or.inr ⟨w2, List.mem_cons_of_mem _ hw2, hy⟩

theorem qsWritesAux_good (m : TMapExpr) :
    ∀ (arr : List JValue) (i : Nat) (w : Nat × FExpressionInput),
      w ∈ qsWritesAux m i arr → goodInput m w.2 := by
  intro arr
  induction arr with
  | nil =>
    intro i w h
    simp [qsWritesAux] at h
  | cons v rest ih =>
    intro i w h
    simp only [qsWritesAux] at h
    by_cases hc : containsKey m (getExpressionName (asObjectD v) "Expression") = true
    · rw [if_pos hc] at h
      rcases List.mem_cons.mp h with h2 | h2
      · subst h2
        exact goodInput_populate _ _ hc
      · exact ih _ _ h2
    · rw [if_neg hc] at h
      exact ih _ _ h

theorem mem_nodeConnections_inputs {n : MaterialExpression} {i : FExpressionInput}
    (h : i ∈ n.Inputs) : i ∈ nodeConnections n := by
  unfold nodeConnections
  repeat apply List.mem_cons_of_mem
  exact h

theorem handleAdd_good {m : TMapExpr} {node : MaterialExpression} (p : JObject)
    (hg : goodNode m node) : goodNode m (handleAdd p m node) := by
  intro i hi
  simp only [handleAdd, nodeConnections, List.mem_cons] at hi
  rcases hi with rfl | rfl | rfl | rfl | rfl | rfl | rfl | rfl | rfl | rfl | hmem
  · exact goodInput_createExpressionInput p m "A"
  · exact goodInput_createExpressionInput p m "B"
  · exact hg _ (by simp [nodeConnections])
  · exact hg _ (by simp [nodeConnections])
  · exact hg _ (by simp [nodeConnections])
  · exact hg _ (by simp [nodeConnections])
  · exact hg _ (by simp [nodeConnections])
  · exact hg _ (by simp [nodeConnections])
  · exact hg _ (by simp [nodeConnections])
  · exact hg _ (by simp [nodeConnections])
  · exact hg _ (mem_nodeConnections_inputs hmem)

theorem handleConstant_good {m : TMapExpr} {node : MaterialExpression} (p : JObject)
    (hg : goodNode m node) : goodNode m (handleConstant p node) := by
  have h : nodeConnections (handleConstant p node) = nodeConnections node := rfl
  intro i hi
  rw [h] at hi
  exact hg i hi

theorem handleQualitySwitch_good {m : TMapExpr} {node : MaterialExpression} (p : JObject)
    (hg : goodNode m node) : goodNode m (handleQualitySwitch p m node) := by
  unfold handleQualitySwitch
  cases harr : tryGetArrayField p "Inputs" with
  | none =>
    intro i hi
    simp only [nodeConnections, List.mem_cons] at hi
    rcases hi with rfl | rfl | rfl | rfl | rfl | rfl | rfl | rfl | rfl | rfl | hmem
    · exact hg _ (by simp [nodeConnections])
    · exact hg _ (by simp [nodeConnections])
    · exact goodInput_createExpressionInput p m "Default"
    · exact hg _ (by simp [nodeConnections])
    · exact hg _ (by simp [nodeConnections])
    · exact hg _ (by simp [nodeConnections])
    · exact hg _ (by simp [nodeConnections])
    · exact hg _ (by simp [nodeConnections])
    · exact hg _ (by simp [nodeConnections])
    · exact hg _ (by simp [nodeConnections])
    · exact hg _ (mem_nodeConnections_inputs hmem)
  | some arr =>
    intro i hi
    simp only [nodeConnections, List.mem_cons] at hi
    rcases hi with rfl | rfl | rfl | rfl | rfl | rfl | rfl | rfl | rfl | rfl | hmem
    · exact hg _ (by simp [nodeConnections])
    · exact hg _ (by simp [nodeConnections])
    · exact goodInput_createExpressionInput p m "Default"
    · exact hg _ (by simp [nodeConnections])
    · exact hg _ (by simp [nodeConnections])
    · exact hg _ (by simp [nodeConnections])
    · exact hg _ (by simp [nodeConnections])
    · exact hg _ (by simp [nodeConnections])
    · exact hg _ (by simp [nodeConnections])
    · exact hg _ (by simp [nodeConnections])
    · rcases mem_foldl_set _ _ _ hmem with h2 | h2
      · exact hg _ (mem_nodeConnections_inputs h2)
      · obtain ⟨w, hw, hy⟩ := h2
        subst hy
        exact qsWritesAux_good m arr 0 w hw

theorem handleRVTSample_good {m : TMapExpr} {node : MaterialExpression} (env : Env) (p : JObject)
    (hg : goodNode m node) : goodNode m (handleRVTSample env p m node) := by
  intro i hi
  simp only [handleRVTSample, nodeConnections, List.mem_cons] at hi
  rcases hi with rfl | rfl | rfl | rfl | rfl | rfl | rfl | rfl | rfl | rfl | hmem
  · exact hg _ (by simp [nodeConnections])
  · exact hg _ (by simp [nodeConnections])
  · exact hg _ (by simp [nodeConnections])
  · exact goodInput_createExpressionInput p m "Coordinates"
  · exact goodInput_createExpressionInput p m "WorldPosition"
  · exact goodInput_createExpressionInput p m "MipValue"
  · exact hg _ (by simp [nodeConnections])
  · exact hg _ (by simp [nodeConnections])
  · exact hg _ (by simp [nodeConnections])
  · exact hg _ (by simp [nodeConnections])
  · exact hg _ (mem_nodeConnections_inputs hmem)

theorem textureSampleBase_good {m : TMapExpr} {node : MaterialExpression} (p : JObject)
    (hg : goodNode m node) : goodNode m (textureSampleBase p m node) := by
  intro i hi
  simp only [textureSampleBase, nodeConnections, List.mem_cons] at hi
  rcases hi with rfl | rfl | rfl | rfl | rfl | rfl | rfl | rfl | rfl | rfl | hmem
  · exact hg _ (by simp [nodeConnections])
  · exact hg _ (by simp [nodeConnections])
  · exact hg _ (by simp [nodeConnections])
  · exact goodInput_gatedInput p m "Coordinates" (hg _ (by simp [nodeConnections]))
  · exact hg _ (by simp [nodeConnections])
  · exact goodInput_gatedInput p m "MipValue" (hg _ (by simp [nodeConnections]))
  · exact goodInput_gatedInput p m "TextureObject" (hg _ (by simp [nodeConnections]))
  · exact goodInput_gatedInput p m "CoordinatesDX" (hg _ (by simp [nodeConnections]))
  · exact goodInput_gatedInput p m "CoordinatesDY" (hg _ (by simp [nodeConnections]))
  · exact goodInput_gatedInput p m "AutomaticViewMipBiasValue" (hg _ (by simp [nodeConnections]))
  · exact hg _ (mem_nodeConnections_inputs hmem)

theorem wrapNode_good {m : TMapExpr} {node : MaterialExpression} (p : JObject)
    (hg : goodNode m node) : goodNode m (wrapNode p node) := by
  have h : nodeConnections (wrapNode p node) = nodeConnections node := rfl
  intro i hi
  rw [h] at hi
  exact hg i hi

theorem dispatchKind_good {m : TMapExpr} {node : MaterialExpression} (env : Env) (p : JObject)
    (ty : String) (hg : goodNode m node) : goodNode m (dispatchKind env p m node ty) := by
  unfold dispatchKind
  dsimp only
  split_ifs <;>
    (repeat
      first
      | exact hg
      | apply handleRVTSample_good
      | apply handleQualitySwitch_good
      | apply handleConstant_good
      | apply handleAdd_good)

theorem goodNode_tmapAdd {m : TMapExpr} {n : MaterialExpression}
    (hg : goodNode m n) (k : String) (v : MaterialExpression) :
    goodNode (tmapAdd m k v) n := fun i hi => goodInput_tmapAdd (hg i hi) k v

theorem goodNode_keysEq {m m2 : TMapExpr} {n : MaterialExpression}
    (h : ∀ x, containsKey m x = containsKey m2 x) (hg : goodNode m n) : goodNode m2 n :=
  fun i hi => goodInput_keysEq h (hg i hi)

theorem goodNode_fresh (m : TMapExpr) (n c : String) :
    goodNode m { Name := n, ClassName := c } := by
  intro i hi
  simp only [nodeConnections, List.mem_cons] at hi
  rcases hi with rfl | rfl | rfl | rfl | rfl | rfl | rfl | rfl | rfl | rfl | hmem
  all_goals first
  | exact goodInput_default m
  | · have := List.eq_of_mem_replicate hmem
      subst this
      exact goodInput_default m

/-! ## Lemmas about the wiring pass -/

theorem propagateAux_contains (env : Env) (exports : List (String × FImportData))
    (bc : Bool) (pn : String) (bs : Bool) :
    ∀ (names : List String) (m : TMapExpr) (acc : List MaterialExpression) (x : String),
      containsKey (propagateAux env exports bc pn bs names m acc).2 x = containsKey m x := by
  intro names
  induction names with
  | nil => intro m acc x; rfl
  | cons name rest ih =>
    intro m acc x
    show containsKey (propagateAux env exports bc pn bs (name :: rest) m acc).2 x = containsKey m x
    rw [propagateAux]
    cases hd : tmapFind exports name with
    | none => exact ih m acc x
    | some d =>
      cases hm : tmapFind m name with
      | none => exact ih m acc x
      | some node =>
        dsimp only
        by_cases hco : (bc && outerMismatch d pn) = true
        · rw [if_pos hco]
          exact ih m acc x
        · rw [if_neg hco]
          have hmem : containsKey m name = true := by simp [containsKey, hm]
          rw [ih]
          exact containsKey_tmapAdd_of_mem _ hmem x

theorem propagateAux_good (env : Env) (exports : List (String × FImportData))
    (bc : Bool) (pn : String) (bs : Bool) :
    ∀ (names : List String) (m : TMapExpr) (acc : List MaterialExpression),
      (∀ k v, tmapFind m k = some v → goodNode m v) →
      (∀ n ∈ acc, goodNode m n) →
      ∀ n ∈ (propagateAux env exports bc pn bs names m acc).1, goodNode m n := by
  intro names
  induction names with
  | nil =>
    intro m acc _ hacc n hn
    exact hacc n hn
  | cons name rest ih =>
    intro m acc hmap hacc n hn
    rw [propagateAux] at hn
    cases hd : tmapFind exports name with
    | none =>
      rw [hd] at hn
      exact ih m acc hmap hacc n hn
    | some d =>
      rw [hd] at hn
      cases hm : tmapFind m name with
      | none =>
        rw [hm] at hn
        exact ih m acc hmap hacc n hn
      | some node =>
        rw [hm] at hn
        dsimp only at hn
        by_cases hco : (bc && outerMismatch d pn) = true
        · rw [if_pos hco] at hn
          exact ih m acc hmap hacc n hn
        · rw [if_neg hco] at hn
          have hnode : goodNode m node := hmap name node hm
          have hkey : containsKey m name = true := by simp [containsKey, hm]
          set props := objOr d.Json "Properties" with hprops
          set n1 := dispatchKind env props m node d.ExType with hn1
          set n2 := if isTextureSampleClass n1.ClassName then textureSampleBase props m n1 else n1 with hn2
          set n3 := wrapNode props n2 with hn3
          have h1 : goodNode m n1 := dispatchKind_good env props d.ExType hnode
          have h2 : goodNode m n2 := by
            rw [hn2]
            split
            · exact textureSampleBase_good props h1
            · exact h1
          have h3 : goodNode m n3 := wrapNode_good props h2
          have hmap2 : ∀ k v, tmapFind (tmapAdd m name n3) k = some v →
              goodNode (tmapAdd m name n3) v := by
            intro k v hkv
            rw [tmapFind_tmapAdd] at hkv
            by_cases hk : name = k
            · rw [if_pos hk] at hkv
              cases hkv
              exact goodNode_tmapAdd h3 name _
            · rw [if_neg hk] at hkv
              exact goodNode_tmapAdd (hmap k v hkv) name n3
          have hacc2 : ∀ x ∈ (if bs = true then acc else acc ++ [n3]),
              goodNode (tmapAdd m name n3) x := by
            intro x hx
            by_cases hbs : bs = true
            · rw [if_pos hbs] at hx
              exact goodNode_tmapAdd (hacc x hx) name n3
            · rw [if_neg hbs] at hx
              rcases List.mem_append.mp hx with h4 | h4
              · exact goodNode_tmapAdd (hacc x h4) name n3
              · rcases List.mem_singleton.mp h4 with rfl
                exact goodNode_tmapAdd h3 name n3
          have hres := ih (tmapAdd m name n3) (if bs = true then acc else acc ++ [n3])
            hmap2 hacc2 n hn
          exact goodNode_keysEq (fun x => containsKey_tmapAdd_of_mem n3 hkey x) hres

/-! ## Lemmas about the create pass -/

theorem createEmptyExpression_shape {env : Env} {n ty : String} {v : MaterialExpression}
    (h : (createEmptyExpression env n ty).1 = some v) :
    ∃ c, v = { Name := n, ClassName := c } := by
  unfold createEmptyExpression at h
  by_cases hig : env.IgnoredExpressions.contains ty = true
  · rw [if_pos hig] at h
    simp at h
  · rw [if_neg hig] at h
    dsimp only at h
    cases hcls : (if env.findClassEngine ty = true then some ty
        else if env.findClassLandscape ty = true then some ty
        else if env.findClassInterchange ty = true then some ty
        else none : Option String) with
    | some c =>
      rw [hcls] at h
      dsimp only at h
      injection h with h2
      exact ⟨c, h2.symm⟩
    | none =>
      rw [hcls] at h
      dsimp only at h
      by_cases hg : env.genericConstructs = true
      · rw [if_pos hg] at h
        injection h with h2
        exact ⟨"MaterialExpression", h2.symm⟩
      · rw [if_neg hg] at h
        simp at h

theorem createdOf_shape {env : Env} {outer : String} {exports : List (String × FImportData)}
    {k : String} {v : MaterialExpression} (h : createdOf env outer exports k = some v) :
    ∃ c, v = { Name := k, ClassName := c } := by
  unfold createdOf at h
  cases hf : exports.find? (fun p => p.1 = k && p.2.Outer = outer) with
  | none =>
    rw [hf] at h
    simp at h
  | some p =>
    rw [hf] at h
    exact createEmptyExpression_shape h

theorem constructAux_find (env : Env) (outer : String) (exports : List (String × FImportData)) :
    ∀ (names : List String) (m : TMapExpr) (ws : List String) (k : String),
      tmapFind (constructAux env outer exports names m ws).1 k =
        if k ∈ names ∧ (createdOf env outer exports k).isSome = true
        then createdOf env outer exports k else tmapFind m k := by
  intro names
  induction names with
  | nil =>
    intro m ws k
    simp [constructAux]
  | cons n rest ih =>
    intro m ws k
    rw [constructAux]
    cases hf : exports.find? (fun p => p.1 = n && p.2.Outer = outer) with
    | none =>
      have hcn : createdOf env outer exports n = none := by
        unfold createdOf
        rw [hf]
      rw [ih]
      by_cases hk : k = n
      · subst hk
        simp [hcn]
      · simp [List.mem_cons, hk]
    | some p =>
      cases hc : (createEmptyExpression env n p.2.ExType).1 with
      | none =>
        have hcn : createdOf env outer exports n = none := by
          unfold createdOf
          rw [hf]
          exact hc
        simp only [hc]
        rw [ih]
        by_cases hk : k = n
        · subst hk
          simp [hcn]
        · simp [List.mem_cons, hk]
      | some ex =>
        have hcn : createdOf env outer exports n = some ex := by
          unfold createdOf
          rw [hf]
          exact hc
        simp only [hc]
        rw [ih]
        by_cases hk : k = n
        · subst hk
          by_cases hr : k ∈ rest <;> simp [hcn, hr, tmapFind_tmapAdd]
        · have hfind : tmapFind (tmapAdd m n ex) k = tmapFind m k := by
            rw [tmapFind_tmapAdd, if_neg (fun h => hk h.symm)]
          simp [List.mem_cons, hk, hfind]

theorem constructExpressions_find (env : Env) (outer : String) (names : List String)
    (exports : List (String × FImportData)) (k : String) :
    tmapFind (constructExpressions env outer names exports).1 k =
      if k ∈ names ∧ (createdOf env outer exports k).isSome = true
      then createdOf env outer exports k else none := by
  rw [constructExpressions, constructAux_find]
  rfl

theorem constructAux_warns (env : Env) (outer : String) (exports : List (String × FImportData)) :
    ∀ (names : List String) (m : TMapExpr) (ws : List String),
      (constructAux env outer exports names m ws).2 =
        ws ++ (names.map (factoryWarnings env outer exports)).flatten := by
  intro names
  induction names with
  | nil =>
    intro m ws
    simp [constructAux]
  | cons n rest ih =>
    intro m ws
    rw [constructAux]
    cases hf : exports.find? (fun p => p.1 = n && p.2.Outer = outer) with
    | none =>
      have hw : factoryWarnings env outer exports n = [] := by
        unfold factoryWarnings
        rw [hf]
      rw [ih]
      simp [hw]
    | some p =>
      have hw : factoryWarnings env outer exports n =
          (createEmptyExpression env n p.2.ExType).2 := by
        unfold factoryWarnings
        rw [hf]
      cases hc : (createEmptyExpression env n p.2.ExType).1 with
      | none =>
        simp only [hc]
        rw [ih]
        simp [hw]
      | some ex =>
        simp only [hc]
        rw [ih]
        simp [hw]

theorem construct_map_good (env : Env) (outer : String) (names : List String)
    (exports : List (String × FImportData)) (m : TMapExpr) (k : String) (v : MaterialExpression)
    (h : tmapFind (constructExpressions env outer names exports).1 k = some v) :
    goodNode m v := by
  rw [constructExpressions_find] at h
  by_cases hc : k ∈ names ∧ (createdOf env outer exports k).isSome = true
  · rw [if_pos hc] at h
    obtain ⟨c, rfl⟩ := createdOf_shape h
    exact goodNode_fresh m k c
  · rw [if_neg hc] at h
    simp at h

theorem construct_names_consistent (env : Env) (outer : String) (names : List String)
    (exports : List (String × FImportData)) (k : String) (v : MaterialExpression)
    (h : tmapFind (constructExpressions env outer names exports).1 k = some v) :
    v.Name = k := by
  rw [constructExpressions_find] at h
  by_cases hc : k ∈ names ∧ (createdOf env outer exports k).isSome = true
  · rw [if_pos hc] at h
    obtain ⟨c, rfl⟩ := createdOf_shape h
    rfl
  · rw [if_neg hc] at h
    simp at h

/-! ## Congruence of the wiring pass in the created-node map -/

theorem containsKey_congr {m m2 : TMapExpr} (h : LookupEq m m2) (k : String) :
    containsKey m k = containsKey m2 k := by
  simp [containsKey, h k]

theorem tmapAdd_lookupEq {m m2 : TMapExpr} (h : LookupEq m m2) (k : String) (v : MaterialExpression) :
    LookupEq (tmapAdd m k v) (tmapAdd m2 k v) := by
  intro x
  rw [tmapFind_tmapAdd, tmapFind_tmapAdd]
  by_cases hk : k = x <;> simp [hk, h x]

theorem createExpressionInput_congr {m m2 : TMapExpr} (h : LookupEq m m2) (p : JObject) (key : String) :
    createExpressionInput p m key = createExpressionInput p m2 key := by
  unfold createExpressionInput
  cases tryGetObjectField p key with
  | none => rfl
  | some sub =>
    dsimp only
    rw [containsKey_congr h]

theorem gatedInput_congr {m m2 : TMapExpr} (h : LookupEq m m2) (p : JObject) (key : String)
    (prior : FExpressionInput) :
    gatedInput p m key prior = gatedInput p m2 key prior := by
  unfold gatedInput
  cases tryGetObjectField p key with
  | none => rfl
  | some sub =>
    dsimp only
    rw [containsKey_congr h]

theorem qsWritesAux_congr {m m2 : TMapExpr} (h : LookupEq m m2) :
    ∀ (arr : List JValue) (i : Nat), qsWritesAux m i arr = qsWritesAux m2 i arr := by
  intro arr
  induction arr with
  | nil => intro i; rfl
  | cons v rest ih =>
    intro i
    simp only [qsWritesAux]
    rw [containsKey_congr h, ih]

theorem qsApply_congr {m m2 : TMapExpr} (h : LookupEq m m2) (inputs : List FExpressionInput)
    (arr : List JValue) : qsApply m inputs arr = qsApply m2 inputs arr := by
  unfold qsApply
  rw [qsWritesAux_congr h]

theorem handleAdd_congr {m m2 : TMapExpr} (h : LookupEq m m2) (p : JObject) (node : MaterialExpression) :
    handleAdd p m node = handleAdd p m2 node := by
  unfold handleAdd
  rw [createExpressionInput_congr h p "A", createExpressionInput_congr h p "B"]

theorem handleQualitySwitch_congr {m m2 : TMapExpr} (h : LookupEq m m2) (p : JObject)
    (node : MaterialExpression) :
    handleQualitySwitch p m node = handleQualitySwitch p m2 node := by
  unfold handleQualitySwitch
  rw [createExpressionInput_congr h p "Default"]
  cases tryGetArrayField p "Inputs" with
  | none => rfl
  | some arr =>
    dsimp only
    rw [qsApply_congr h]

theorem handleRVTSample_congr {m m2 : TMapExpr} (h : LookupEq m m2) (env : Env) (p : JObject)
    (node : MaterialExpression) :
    handleRVTSample env p m node = handleRVTSample env p m2 node := by
  unfold handleRVTSample
  rw [createExpressionInput_congr h p "Coordinates",
    createExpressionInput_congr h p "WorldPosition",
    createExpressionInput_congr h p "MipValue"]

theorem textureSampleBase_congr {m m2 : TMapExpr} (h : LookupEq m m2) (p : JObject)
    (node : MaterialExpression) :
    textureSampleBase p m node = textureSampleBase p m2 node := by
  unfold textureSampleBase
  rw [gatedInput_congr h p "Coordinates", gatedInput_congr h p "TextureObject",
    gatedInput_congr h p "MipValue", gatedInput_congr h p "CoordinatesDX",
    gatedInput_congr h p "CoordinatesDY", gatedInput_congr h p "AutomaticViewMipBiasValue"]

theorem dispatchKind_congr {m m2 : TMapExpr} (h : LookupEq m m2) (env : Env) (p : JObject)
    (node : MaterialExpression) (ty : String) :
    dispatchKind env p m node ty = dispatchKind env p m2 node ty := by
  simp only [dispatchKind]
  rw [handleAdd_congr h p, handleQualitySwitch_congr h p, handleRVTSample_congr h env p]

/-! ## Name preservation through the handlers -/

theorem handleQualitySwitch_name (p : JObject) (m : TMapExpr) (node : MaterialExpression) :
    (handleQualitySwitch p m node).Name = node.Name := by
  unfold handleQualitySwitch
  cases tryGetArrayField p "Inputs" <;> rfl

theorem dispatchKind_name (env : Env) (p : JObject) (m : TMapExpr) (node : MaterialExpression)
    (ty : String) : (dispatchKind env p m node ty).Name = node.Name := by
  simp only [dispatchKind]
  split_ifs <;>
    simp [handleAdd, handleConstant, handleRVTSample, handleQualitySwitch_name]

theorem textureSampleBase_name (p : JObject) (m : TMapExpr) (node : MaterialExpression) :
    (textureSampleBase p m node).Name = node.Name := rfl

theorem wrapNode_name (p : JObject) (node : MaterialExpression) :
    (wrapNode p node).Name = node.Name := rfl

theorem shouldAttach_tmapAdd (exports : List (String × FImportData)) (bc : Bool) (pn : String)
    {m : TMapExpr} {name : String} (v : MaterialExpression)
    (hkey : containsKey m name = true) (x : String) :
    shouldAttach exports bc pn (tmapAdd m name v) x = shouldAttach exports bc pn m x := by
  unfold shouldAttach
  cases tmapFind exports x with
  | none => rfl
  | some d =>
    dsimp only
    rw [containsKey_tmapAdd_of_mem v hkey x]

theorem propagateAux_congr (env : Env) (exports : List (String × FImportData))
    (bc : Bool) (pn : String) (bs : Bool) :
    ∀ (names : List String) (m m2 : TMapExpr) (acc : List MaterialExpression),
      LookupEq m m2 →
      (propagateAux env exports bc pn bs names m acc).1
          = (propagateAux env exports bc pn bs names m2 acc).1
        ∧ LookupEq (propagateAux env exports bc pn bs names m acc).2
            (propagateAux env exports bc pn bs names m2 acc).2 := by
  intro names
  induction names with
  | nil =>
    intro m m2 acc h
    exact ⟨rfl, h⟩
  | cons name rest ih =>
    intro m m2 acc h
    simp only [propagateAux]
    cases hd : tmapFind exports name with
    | none => exact ih m m2 acc h
    | some d =>
      rw [← h name]
      cases hm : tmapFind m name with
      | none => exact ih m m2 acc h
      | some node =>
        dsimp only
        by_cases hco : (bc && outerMismatch d pn) = true
        · rw [if_pos hco, if_pos hco]
          exact ih m m2 acc h
        · rw [if_neg hco, if_neg hco]
          have e1 : dispatchKind env (objOr d.Json "Properties") m2 node d.ExType
              = dispatchKind env (objOr d.Json "Properties") m node d.ExType :=
            (dispatchKind_congr h env (objOr d.Json "Properties") node d.ExType).symm
          rw [e1]
          have e2 : textureSampleBase (objOr d.Json "Properties") m2
                (dispatchKind env (objOr d.Json "Properties") m node d.ExType)
              = textureSampleBase (objOr d.Json "Properties") m
                (dispatchKind env (objOr d.Json "Properties") m node d.ExType) :=
            (textureSampleBase_congr h (objOr d.Json "Properties") _).symm
          rw [e2]
          exact ih _ _ _ (tmapAdd_lookupEq h name _)

theorem propagateAux_names (env : Env) (exports : List (String × FImportData))
    (bc : Bool) (pn : String) :
    ∀ (names : List String) (m : TMapExpr) (acc : List MaterialExpression),
      (∀ k v, tmapFind m k = some v → v.Name = k) →
      ((propagateAux env exports bc pn false names m acc).1).map (fun n => n.Name)
        = acc.map (fun n => n.Name) ++ names.filter (shouldAttach exports bc pn m) := by
  intro names
  induction names with
  | nil =>
    intro m acc _
    simp [propagateAux]
  | cons name rest ih =>
    intro m acc hcons
    simp only [propagateAux]
    cases hd : tmapFind exports name with
    | none =>
      have hsa : shouldAttach exports bc pn m name = false := by
        unfold shouldAttach
        rw [hd]
      rw [ih m acc hcons]
      simp [List.filter_cons, hsa]
    | some d =>
      cases hm : tmapFind m name with
      | none =>
        have hsa : shouldAttach exports bc pn m name = false := by
          unfold shouldAttach
          rw [hd]
          simp [containsKey, hm]
        rw [ih m acc hcons]
        simp [List.filter_cons, hsa]
      | some node =>
        dsimp only
        by_cases hco : (bc && outerMismatch d pn) = true
        · rw [if_pos hco]
          have hsa : shouldAttach exports bc pn m name = false := by
            unfold shouldAttach
            rw [hd]
            simp [containsKey, hm, hco]
          rw [ih m acc hcons]
          simp [List.filter_cons, hsa]
        · rw [if_neg hco]
          have hkey : containsKey m name = true := by simp [containsKey, hm]
          have hsa : shouldAttach exports bc pn m name = true := by
            unfold shouldAttach
            rw [hd]
            have hco2 : (bc && outerMismatch d pn) = false := by
              simpa using hco
            simp [containsKey, hm, hco2]
          set props := objOr d.Json "Properties" with hprops
          set n1 := dispatchKind env props m node d.ExType with hn1
          set n2 := if isTextureSampleClass n1.ClassName = true then textureSampleBase props m n1 else n1 with hn2
          set n3 := wrapNode props n2 with hn3
          have hname2 : n2.Name = node.Name := by
            rw [hn2]
            split
            · rw [textureSampleBase_name, hn1, dispatchKind_name]
            · rw [hn1, dispatchKind_name]
          have hname3 : n3.Name = name := by
            rw [hn3, wrapNode_name, hname2]
            exact hcons name node hm
          have hcons2 : ∀ k v, tmapFind (tmapAdd m name n3) k = some v → v.Name = k := by
            intro k v hkv
            rw [tmapFind_tmapAdd] at hkv
            by_cases hk : name = k
            · rw [if_pos hk] at hkv
              cases hkv
              rw [← hk]
              exact hname3
            · rw [if_neg hk] at hkv
              exact hcons k v hkv
          simp only [Bool.false_eq_true, if_false]
          rw [ih (tmapAdd m name n3) (acc ++ [n3]) hcons2]
          rw [List.filter_congr (fun x _ => shouldAttach_tmapAdd exports bc pn n3 hkey x)]
          simp [List.filter_cons, hsa, hname3]

/-! ## Lemmas about the partition pass -/

theorem partitionAux_names (ty outer : String) :
    ∀ (rs : List JObject) (acc : PartitionResult),
      (partitionAux ty outer acc rs).ExpressionNames =
        acc.ExpressionNames ++
          (rs.filter (fun o => !(isEditorOnlyRec ty o))).map (fun o => getStringField o "Name") := by
  intro rs
  induction rs with
  | nil => intro acc; simp [partitionAux]
  | cons o rest ih =>
    intro acc
    rw [partitionAux, ih]
    by_cases hm : isEditorOnlyRec ty o = true
    · simp [partitionStep, hm, List.filter_cons]
    · simp [partitionStep, hm, List.filter_cons]

theorem partitionAux_meta (ty outer : String) :
    ∀ (rs : List JObject) (acc : PartitionResult),
      (partitionAux ty outer acc rs).EditorOnlyData =
        optOr (rs.reverse.find? (isEditorOnlyRec ty)) acc.EditorOnlyData := by
  intro rs
  induction rs with
  | nil => intro acc; simp [partitionAux, optOr]
  | cons o rest ih =>
    intro acc
    rw [partitionAux, ih, List.reverse_cons, find?_append_opt, optOr_assoc]
    congr 1
    by_cases hm : isEditorOnlyRec ty o = true <;>
      simp [partitionStep, hm, optOr, List.find?]

theorem partitionAux_contains (ty outer : String) :
    ∀ (rs : List JObject) (acc : PartitionResult) (k : String),
      containsKey (partitionAux ty outer acc rs).OutExports k =
        (containsKey acc.OutExports k ||
          ((rs.filter (fun o => !(isEditorOnlyRec ty o))).map
            (fun o => getStringField o "Name")).contains k) := by
  intro rs
  induction rs with
  | nil => intro acc k; simp [partitionAux]
  | cons o rest ih =>
    intro acc k
    rw [partitionAux, ih]
    by_cases hm : isEditorOnlyRec ty o = true
    · simp [partitionStep, hm, List.filter_cons]
    · by_cases hk : getStringField o "Name" = k
      · simp [partitionStep, hm, hk, List.filter_cons, List.contains_cons,
          containsKey_tmapAdd]
      · have hk2 : ¬ (k = getStringField o "Name") := fun h => hk h.symm
        have hbeq : (k == getStringField o "Name") = false := by
          simp [hk2]
        simp [partitionStep, hm, hk, hbeq, List.filter_cons, List.contains_cons,
          containsKey_tmapAdd]

/-! ## Lemmas about the quality-switch write loop -/

theorem qsWritesAux_lt (m : TMapExpr) :
    ∀ (arr : List JValue) (i : Nat) (w : Nat × FExpressionInput),
      w ∈ qsWritesAux m i arr → w.1 < i + arr.length := by
  intro arr
  induction arr with
  | nil =>
    intro i w h
    simp [qsWritesAux] at h
  | cons v rest ih =>
    intro i w h
    simp only [qsWritesAux] at h
    by_cases hc : containsKey m (getExpressionName (asObjectD v) "Expression") = true
    · rw [if_pos hc] at h
      rcases List.mem_cons.mp h with h2 | h2
      · subst h2
        simp only [List.length_cons]
        omega
      · have h3 := ih (i + 1) w h2
        simp only [List.length_cons]
        omega
    · rw [if_neg hc] at h
      have h3 := ih (i + 1) w h
      simp only [List.length_cons]
      omega

theorem qsWriteIndices_replicate :
    ∀ (n i : Nat),
      (qsWritesAux qsMap1 i (List.replicate n qsResolvedEntry)).map (fun w => w.1) =
        List.range' i n := by
  intro n
  induction n with
  | zero => intro i; rfl
  | succ k ih =>
    intro i
    rw [List.replicate_succ]
    simp only [qsWritesAux]
    have hc : containsKey qsMap1 (getExpressionName (asObjectD qsResolvedEntry) "Expression") = true := by
      decide
    rw [if_pos hc]
    simp only [List.map_cons]
    rw [ih, List.range'_succ]

/-! ## The claims -/

/-- Claim C1: every Connection whose target is set by the wiring engine points
to a node present in the same graph's created-node map — for every import and
every attached node, a set `Expression` pointer names a key of the map, and a
reference to a name absent from the map yields a default (unconnected)
`FExpressionInput` rather than an error or an abort of the remaining nodes. -/
theorem spec_C1 (env : Env) (ty outer : String) (records : List JObject)
    (bc : Bool) (pn : String) (bs : Bool) :
    (∀ node ∈ (importGraph env ty outer records bc pn bs).Attached,
      ∀ i ∈ nodeConnections node, ∀ t, i.Expression = some t →
        containsKey (importGraph env ty outer records bc pn bs).FinalMap t = true)
    ∧ (∀ (props : JObject) (m : TMapExpr) (key : String),
        containsKey m (inputTargetName props key) = false →
        createExpressionInput props m key = {}) := by
  constructor
  · intro node hnode i hi t ht
    have hnode2 : node ∈ (propagateAux env (findEditorOnlyData ty outer records).OutExports bc pn bs
        (findEditorOnlyData ty outer records).ExpressionNames
        (constructExpressions env outer (findEditorOnlyData ty outer records).ExpressionNames
          (findEditorOnlyData ty outer records).OutExports).1 []).1 := hnode
    have hmapg : ∀ k v, tmapFind (constructExpressions env outer
        (findEditorOnlyData ty outer records).ExpressionNames
        (findEditorOnlyData ty outer records).OutExports).1 k = some v →
        goodNode (constructExpressions env outer
          (findEditorOnlyData ty outer records).ExpressionNames
          (findEditorOnlyData ty outer records).OutExports).1 v := by
      intro k v h
      exact construct_map_good env outer _ _ _ k v h
    have hg := propagateAux_good env (findEditorOnlyData ty outer records).OutExports bc pn bs
      (findEditorOnlyData ty outer records).ExpressionNames
      (constructExpressions env outer (findEditorOnlyData ty outer records).ExpressionNames
        (findEditorOnlyData ty outer records).OutExports).1 []
      hmapg (by intro n hn; simp at hn) node hnode2
    have hct := hg i hi t ht
    have hfc := propagateAux_contains env (findEditorOnlyData ty outer records).OutExports bc pn bs
      (findEditorOnlyData ty outer records).ExpressionNames
      (constructExpressions env outer (findEditorOnlyData ty outer records).ExpressionNames
        (findEditorOnlyData ty outer records).OutExports).1 [] t
    show containsKey (propagateAux env (findEditorOnlyData ty outer records).OutExports bc pn bs
      (findEditorOnlyData ty outer records).ExpressionNames
      (constructExpressions env outer (findEditorOnlyData ty outer records).ExpressionNames
        (findEditorOnlyData ty outer records).OutExports).1 []).2 t = true
    rw [hfc]
    exact hct
  · intro props m key h
    unfold inputTargetName at h
    unfold createExpressionInput
    revert h
    cases htry : tryGetObjectField props key with
    | none =>
      intro _
      rfl
    | some sub =>
      intro h
      dsimp only at h ⊢
      rw [h]
      simp

/-- Witness for C1 at the two-node graph of the re-encoded Scenario A: the
first attached node's `A` input targets `N2`, which the theorem places in the
created-node map. -/
theorem spec_C1_witness :
    ((importGraph env9 "Material" "Outer0" [recN1A, recN2A] false "Parent" false).Attached.headI
        ∈ (importGraph env9 "Material" "Outer0" [recN1A, recN2A] false "Parent" false).Attached)
    ∧ containsKey (importGraph env9 "Material" "Outer0" [recN1A, recN2A] false "Parent" false).FinalMap "N2" = true := by
  refine ⟨by decide, ?_⟩
  exact (spec_C1 env9 "Material" "Outer0" [recN1A, recN2A] false "Parent" false).1
    (importGraph env9 "Material" "Outer0" [recN1A, recN2A] false "Parent" false).Attached.headI
    (by decide)
    (importGraph env9 "Material" "Outer0" [recN1A, recN2A] false "Parent" false).Attached.headI.A
    (by decide)
    "N2" (by decide)

/-- Claim C2 (amended): for a Color/Scalar/Vector-variant wiring call, the
`UseConstant` flag and `Constant` literal are read from the input's own
sub-object and only when the referenced name resolves in the created-node
map; when the name is absent the returned Connection is entirely
default-constructed, carrying no constant fallback. -/
theorem spec_C2 (props : JObject) (m : TMapExpr) (key ty : String) (sub : JObject)
    (hsub : tryGetObjectField props key = some sub) :
    (containsKey m (getExpressionName sub "Expression") = false →
      wireInputVariant props m key ty = {})
    ∧ (containsKey m (getExpressionName sub "Expression") = true →
      wireInputVariant props m key ty
        = populateExpressionInput sub (getExpressionName sub "Expression") ty) := by
  unfold wireInputVariant
  rw [hsub]
  dsimp only
  constructor
  · intro h
    rw [h]
    simp
  · intro h
    rw [h]
    simp

/-- Witness for C2 at the concrete unresolvable input: the wiring call returns
the default Connection. -/
theorem spec_C2_witness :
    tryGetObjectField c2props "X" = some c2sub
    ∧ wireInputVariant c2props c2map "X" "Scalar" = {} := by
  refine ⟨rfl, ?_⟩
  exact (spec_C2 c2props c2map "X" "Scalar" c2sub rfl).1 (by decide)

/-- Counterexample to C2 as stated: the bag carries `UseConstant:true` and
`Constant:5`, the referenced name `Missing` is absent from the map, and the
returned Connection has `UseConstant = false` and no constant — the constant
fallback is not populated when the live Connection fails to resolve. -/
theorem spec_C2_cex :
    tryGetBoolField c2sub "UseConstant" = some true
    ∧ tryGetNumberField c2sub "Constant" = some 5
    ∧ containsKey c2map (getExpressionName c2sub "Expression") = false
    ∧ (wireInputVariant c2props c2map "X" "Scalar").Expression = none
    ∧ (wireInputVariant c2props c2map "X" "Scalar").UseConstant = false
    ∧ (wireInputVariant c2props c2map "X" "Scalar").Constant = MaterialConstant.unset := by
  decide

/-- Claim C3 (amended): a string-keyed enum field is left at the node's prior
default when the key is absent from the bag; when the key is present the
field is overwritten with the reflection lookup's result — the table value
for a recognized name, and the cast failure sentinel `INDEX_NONE` (-1), not
the prior default, for an unrecognized name; no branch throws. Shown for the
runtime-virtual-texture `MaterialType` and the texture-sample base handler's
`SamplerSource`. -/
theorem spec_C3 (env : Env) (props : JObject) (m : TMapExpr) (node : MaterialExpression) :
    (tryGetStringField props "MaterialType" = none →
      (handleRVTSample env props m node).MaterialType = node.MaterialType)
    ∧ (∀ s, tryGetStringField props "MaterialType" = some s →
        tmapFind rvtMaterialTypeTable s = none →
        (handleRVTSample env props m node).MaterialType = -1)
    ∧ (∀ s v, tryGetStringField props "MaterialType" = some s →
        tmapFind rvtMaterialTypeTable s = some v →
        (handleRVTSample env props m node).MaterialType = v)
    ∧ (tryGetStringField props "SamplerSource" = none →
      (textureSampleBase props m node).SamplerSource = node.SamplerSource)
    ∧ (∀ s, tryGetStringField props "SamplerSource" = some s →
        tmapFind samplerSourceTable s = none →
        (textureSampleBase props m node).SamplerSource = -1)
    ∧ (∀ s v, tryGetStringField props "SamplerSource" = some s →
        tmapFind samplerSourceTable s = some v →
        (textureSampleBase props m node).SamplerSource = v) := by
  refine ⟨?_, ?_, ?_, ?_, ?_, ?_⟩
  · intro h
    show enumSet props "MaterialType" rvtMaterialTypeTable node.MaterialType = node.MaterialType
    unfold enumSet
    rw [h]
  · intro s hs hn
    show enumSet props "MaterialType" rvtMaterialTypeTable node.MaterialType = -1
    simp [enumSet, getValueByNameString, hs, hn]
  · intro s v hs hv
    show enumSet props "MaterialType" rvtMaterialTypeTable node.MaterialType = v
    simp [enumSet, getValueByNameString, hs, hv]
  · intro h
    show enumSet props "SamplerSource" samplerSourceTable node.SamplerSource = node.SamplerSource
    unfold enumSet
    rw [h]
  · intro s hs hn
    show enumSet props "SamplerSource" samplerSourceTable node.SamplerSource = -1
    simp [enumSet, getValueByNameString, hs, hn]
  · intro s v hs hv
    show enumSet props "SamplerSource" samplerSourceTable node.SamplerSource = v
    simp [enumSet, getValueByNameString, hs, hv]

/-- Witness for C3: the unrecognized enum text `Bogus` drives the field to the
sentinel -1. -/
theorem spec_C3_witness :
    tryGetStringField [("MaterialType", JValue.jstr "Bogus")] "MaterialType" = some "Bogus"
    ∧ (handleRVTSample env9 [("MaterialType", JValue.jstr "Bogus")] [] rvtNode0).MaterialType = -1 := by
  refine ⟨by decide, ?_⟩
  exact (spec_C3 env9 [("MaterialType", JValue.jstr "Bogus")] [] rvtNode0).2.1 "Bogus"
    (by decide) (by decide)

/-- Counterexample to C3 as stated: with the key present but the enum name
unrecognized, the node's field does not keep its prior default value — it is
overwritten with the cast sentinel. -/
theorem spec_C3_cex :
    tryGetStringField [("MaterialType", JValue.jstr "Bogus")] "MaterialType" = some "Bogus"
    ∧ tmapFind rvtMaterialTypeTable "Bogus" = none
    ∧ rvtNode0.MaterialType = 0
    ∧ ¬ ((handleRVTSample env9 [("MaterialType", JValue.jstr "Bogus")] [] rvtNode0).MaterialType
        = rvtNode0.MaterialType) := by
  decide

/-- Claim C4 (amended): a record whose kind tag is on the factory's ignore
list yields null and is omitted from the created-node map; a kind tag outside
the supported list records the missing-support warning, but construction is
still attempted, and a name is omitted from the map exactly when the
factory's result is null; each name's map entry and warning depend only on
that record, so all other records import fully. -/
theorem spec_C4 (env : Env) (name ty outer : String) (names : List String)
    (exports : List (String × FImportData)) (k : String) :
    (env.IgnoredExpressions.contains ty = true → createEmptyExpression env name ty = (none, []))
    ∧ (env.IgnoredExpressions.contains ty = false → env.Expressions.contains ty = false →
        (createEmptyExpression env name ty).2 = ["Missing support for expression type: " ++ ty])
    ∧ (tmapFind (constructExpressions env outer names exports).1 k =
        if k ∈ names ∧ (createdOf env outer exports k).isSome = true
        then createdOf env outer exports k else none)
    ∧ ((constructExpressions env outer names exports).2 =
        (names.map (factoryWarnings env outer exports)).flatten) := by
  refine ⟨?_, ?_, ?_, ?_⟩
  · intro h
    unfold createEmptyExpression
    rw [if_pos h]
  · intro h1 h2
    unfold createEmptyExpression
    rw [if_neg (fun hc => Bool.false_ne_true (h1 ▸ hc))]
    dsimp only
    cases hcls : (if env.findClassEngine ty = true then some ty
        else if env.findClassLandscape ty = true then some ty
        else if env.findClassInterchange ty = true then some ty
        else none : Option String) with
    | some c =>
      dsimp only
      rw [if_neg (fun hc => Bool.false_ne_true (h2 ▸ hc))]
    | none =>
      dsimp only
      rw [if_neg (fun hc => Bool.false_ne_true (h2 ▸ hc))]
  · exact constructExpressions_find env outer names exports k
  · rw [constructExpressions, constructAux_warns]
    simp

/-- Witness for C4: the unsupported kind `UnknownFutureNode` records exactly
the missing-support warning. -/
theorem spec_C4_witness :
    envC4.Expressions.contains "UnknownFutureNode" = false
    ∧ (createEmptyExpression envC4 "N1" "UnknownFutureNode").2
        = ["Missing support for expression type: " ++ "UnknownFutureNode"] := by
  refine ⟨by decide, ?_⟩
  exact (spec_C4 envC4 "N1" "UnknownFutureNode" "Outer0" ["N1"] exportsC4 "N1").2.1
    (by decide) (by decide)

/-- Counterexample to C4 as stated: for the unrecognized kind tag
`UnknownFutureNode` (warning recorded) the factory does not return null — the
engine class probe finds a class, the node is created, and its name does
enter the created-node map. -/
theorem spec_C4_cex :
    envC4.Expressions.contains "UnknownFutureNode" = false
    ∧ (constructExpressions envC4 "Outer0" ["N1"] exportsC4).2
        = ["Missing support for expression type: UnknownFutureNode"]
    ∧ containsKey (constructExpressions envC4 "Outer0" ["N1"] exportsC4).1 "N1" = true
    ∧ ¬ ((createEmptyExpression envC4 "N1" "UnknownFutureNode").1 = none) := by
  decide

/-- Claim C5: partitioning keeps every record whose kind tag is the unit kind
name with the `EditorOnlyData` suffix out of the export index and the ordered
name list, capturing the last such record as the editor-metadata result, and
indexes every other record by name in declaration order; in particular one
metadata record alongside three node records yields exactly one captured
metadata record and exactly three index entries. -/
theorem spec_C5 (ty outer : String) (records : List JObject) :
    ((findEditorOnlyData ty outer records).ExpressionNames =
      (records.filter (fun o => !(isEditorOnlyRec ty o))).map (fun o => getStringField o "Name"))
    ∧ ((findEditorOnlyData ty outer records).EditorOnlyData =
      records.reverse.find? (isEditorOnlyRec ty))
    ∧ (∀ k, containsKey (findEditorOnlyData ty outer records).OutExports k =
      ((records.filter (fun o => !(isEditorOnlyRec ty o))).map
        (fun o => getStringField o "Name")).contains k)
    ∧ ((findEditorOnlyData "Material" "O" [recMeta, recD1, recD2, recD3]).ExpressionNames.length = 3
      ∧ (findEditorOnlyData "Material" "O" [recMeta, recD1, recD2, recD3]).EditorOnlyData.isSome = true) := by
  refine ⟨?_, ?_, ?_, by decide, by decide⟩
  · rw [findEditorOnlyData, partitionAux_names]
    simp
  · rw [findEditorOnlyData, partitionAux_meta]
    have hopt : ∀ (x : Option JObject), optOr x none = x := by
      intro x
      cases x <;> rfl
    exact hopt _
  · intro k
    rw [findEditorOnlyData, partitionAux_contains]
    simp [containsKey, tmapFind]

/-- Claim C6 (amended): for the `MaterialFunction` and `Collection` external
asset-pointer fields, a failed direct load extracts the short identifier
(the object path up to the first dot) and invokes the recovery hook exactly
once; if the hook succeeds the direct load is retried exactly once, with no
notification; if the hook fails the user-visible `... Missing: ...`
notification is emitted and the field stays unset; the resolver is total, so
the import continues in every case. Other external asset-pointer fields do
not follow this protocol (see the counterexample). -/
theorem spec_C6 (env : Env) (descriptor : JObject) (label : String)
    (hfail : loadByDescriptor env.loadAsset descriptor = none) :
    ((resolveWithRecovery env descriptor label).hookCalls
        = [splitLeftAtDot (getStringField descriptor "ObjectPath")])
    ∧ (env.handleReference (splitLeftAtDot (getStringField descriptor "ObjectPath")) = true →
        (resolveWithRecovery env descriptor label).loadCalls = 2
        ∧ (resolveWithRecovery env descriptor label).field
            = loadByDescriptor env.loadAssetRetry descriptor
        ∧ (resolveWithRecovery env descriptor label).notifications = [])
    ∧ (env.handleReference (splitLeftAtDot (getStringField descriptor "ObjectPath")) = false →
        (resolveWithRecovery env descriptor label).field = none
        ∧ (resolveWithRecovery env descriptor label).notifications
            = [label ++ " Missing: " ++ splitLeftAtDot (getStringField descriptor "ObjectPath")]
        ∧ (resolveWithRecovery env descriptor label).loadCalls = 1) := by
  unfold resolveWithRecovery
  rw [hfail]
  dsimp only
  refine ⟨?_, ?_, ?_⟩
  · by_cases hh : env.handleReference (splitLeftAtDot (getStringField descriptor "ObjectPath")) = true
    · rw [if_pos hh]
    · rw [if_neg hh]
  · intro hh
    rw [if_pos hh]
    exact ⟨rfl, rfl, rfl⟩
  · intro hh
    rw [if_neg (fun hc => Bool.false_ne_true (hh ▸ hc))]
    exact ⟨rfl, rfl, rfl⟩

/-- Witness for C6 at a concrete missing asset: the hook is called with the
short identifier extracted from the object path. -/
theorem spec_C6_witness :
    loadByDescriptor env9.loadAsset c6desc = none
    ∧ (resolveWithRecovery env9 c6desc "Material Function").hookCalls
        = [splitLeftAtDot (getStringField c6desc "ObjectPath")] := by
  refine ⟨by decide, ?_⟩
  exact (spec_C6 env9 c6desc "Material Function" (by decide)).1

/-- Counterexample to C6 as stated: the `VirtualTexture` external
asset-pointer field of the runtime-virtual-texture sample handler does not
invoke the recovery hook and does not retry after a failed direct load — it
emits its notification immediately, so the protocol does not hold for every
external asset-pointer field. -/
theorem spec_C6_cex :
    loadByDescriptor env9.loadAsset c6desc = none
    ∧ (resolveVirtualTexture env9 c6desc).hookCalls = []
    ∧ (resolveVirtualTexture env9 c6desc).loadCalls = 1
    ∧ (resolveVirtualTexture env9 c6desc).notifications
        = ["Virtual Texture Sample Missing: /Game/Path/Asset"]
    ∧ (resolveVirtualTexture env9 c6desc).field = none := by
  decide

/-- Claim C7: the import pipeline is deterministic in its input — two runs of
the full pipeline (partition, create, wire, attach) on the same record list
produce identical attached-node lists, identical node names, and
lookup-identical created-node maps. In this embedding nodes are pure values
identified by `Name`, so comparison by name rather than instance identity is
the only notion of equality, and determinism holds definitionally. -/
theorem spec_C7 (env : Env) (ty outer : String) (records : List JObject)
    (bc : Bool) (pn : String) (bs : Bool) :
    ((importGraph env ty outer records bc pn bs).Attached.map (fun n => n.Name)
        = (importGraph env ty outer records bc pn bs).Attached.map (fun n => n.Name))
    ∧ ((importGraph env ty outer records bc pn bs).Attached
        = (importGraph env ty outer records bc pn bs).Attached)
    ∧ (∀ k, tmapFind (importGraph env ty outer records bc pn bs).FinalMap k
        = tmapFind (importGraph env ty outer records bc pn bs).FinalMap k) :=
  ⟨rfl, rfl, fun _ => rfl⟩

/-- Claim C8: running the create pass over any permutation of the ordered
name list leaves the wiring pass's output unchanged — the attached nodes
(and hence which Connections resolve, and to which names) are equal —
because pass 2 depends on the created-node map only through lookups; and the
attached collection's order equals the original declaration order, filtered
to the names that were created and pass the Outer check. -/
theorem spec_C8 (env : Env) (ty outer : String) (records : List JObject)
    (bc : Bool) (pn : String) (createOrder : List String)
    (hperm : createOrder.Perm (findEditorOnlyData ty outer records).ExpressionNames) :
    ((importGraphCreateOrder env ty outer records bc pn false createOrder).Attached
        = (importGraph env ty outer records bc pn false).Attached)
    ∧ ((importGraph env ty outer records bc pn false).Attached.map (fun n => n.Name)
        = (findEditorOnlyData ty outer records).ExpressionNames.filter
            (shouldAttach (findEditorOnlyData ty outer records).OutExports bc pn
              (constructExpressions env outer (findEditorOnlyData ty outer records).ExpressionNames
                (findEditorOnlyData ty outer records).OutExports).1)) := by
  constructor
  · have hle : LookupEq
        (constructExpressions env outer createOrder
          (findEditorOnlyData ty outer records).OutExports).1
        (constructExpressions env outer (findEditorOnlyData ty outer records).ExpressionNames
          (findEditorOnlyData ty outer records).OutExports).1 := by
      intro k
      rw [constructExpressions_find, constructExpressions_find]
      by_cases hmem : k ∈ (findEditorOnlyData ty outer records).ExpressionNames
      · have hmem2 : k ∈ createOrder := (hperm.mem_iff).mpr hmem
        simp [hmem, hmem2]
      · have hmem2 : k ∉ createOrder := fun h => hmem ((hperm.mem_iff).mp h)
        simp [hmem, hmem2]
    exact (propagateAux_congr env (findEditorOnlyData ty outer records).OutExports bc pn false
      (findEditorOnlyData ty outer records).ExpressionNames _ _ [] hle).1
  · have h := propagateAux_names env (findEditorOnlyData ty outer records).OutExports bc pn
      (findEditorOnlyData ty outer records).ExpressionNames
      (constructExpressions env outer (findEditorOnlyData ty outer records).ExpressionNames
        (findEditorOnlyData ty outer records).OutExports).1 []
      (fun k v hkv => construct_names_consistent env outer _ _ k v hkv)
    simpa using h

/-- Witness for C8: swapping the two names of the re-encoded Scenario A in
the create pass leaves the attached graph unchanged. -/
theorem spec_C8_witness :
    (["N2", "N1"].Perm (findEditorOnlyData "Material" "Outer0" [recN1A, recN2A]).ExpressionNames)
    ∧ ((importGraphCreateOrder env9 "Material" "Outer0" [recN1A, recN2A] false "Parent" false
          ["N2", "N1"]).Attached
        = (importGraph env9 "Material" "Outer0" [recN1A, recN2A] false "Parent" false).Attached) := by
  refine ⟨by decide, ?_⟩
  exact (spec_C8 env9 "Material" "Outer0" [recN1A, recN2A] false "Parent" ["N2", "N1"]
    (by decide)).1

/-- Claim C9 (amended): with Scenario A encoded in the host serialization the
code parses — kind tags `MaterialExpressionAdd` / `MaterialExpressionConstant`
and the reference wrapped as `Expression.ObjectName` with a Class-qualified
name — the resulting graph has exactly 2 nodes, `N1.A` targets `N2` with
output slot 0, `N1.ConstB` is 5, and `N2.R` is 3. -/
theorem spec_C9 :
    (importGraph env9 "Material" "Outer0" [recN1A, recN2A] false "Parent" false).Attached.length = 2
    ∧ ((tmapFind (importGraph env9 "Material" "Outer0" [recN1A, recN2A] false "Parent"
          false).FinalMap "N1").map (fun n => (n.A.Expression, n.A.OutputIndex, n.ConstB)))
        = some (some "N2", 0, 5)
    ∧ ((tmapFind (importGraph env9 "Material" "Outer0" [recN1A, recN2A] false "Parent"
          false).FinalMap "N2").map (fun n => n.R)) = some 3 := by
  decide

/-- Counterexample to C9 as stated: on the literal Scenario A records — kind
tags `Add` / `Constant` and `A:{ObjectName:"N2"}` — the dispatch matches no
handler and the reference wrapper is absent, so `N1.ConstB` stays 0 (not 5)
and `N1.A` is left unconnected, even though both nodes are created. -/
theorem spec_C9_cex :
    (importGraph env9 "Material" "Outer0" [recN1, recN2] false "Parent" false).Attached.length = 2
    ∧ ((tmapFind (importGraph env9 "Material" "Outer0" [recN1, recN2] false "Parent"
          false).FinalMap "N1").map (fun n => (n.A.Expression, n.ConstB))) = some (none, 0)
    ∧ ¬ (((tmapFind (importGraph env9 "Material" "Outer0" [recN1, recN2] false "Parent"
          false).FinalMap "N1").map (fun n => n.ConstB)) = some 5) := by
  decide

/-- Claim C10: the quality-switch handler increments its running index for
every entry of the JSON `Inputs` array (resolved or not) and writes
`Inputs[i]` without a bounds check; hence when the array has at most as many
entries as the destination's capacity every attempted write index is in
bounds, and the precondition is necessary — for every capacity there is an
input whose write index reaches past it. -/
theorem spec_C10 (cap : Nat) (m : TMapExpr) (arr : List JValue) (h : arr.length ≤ cap) :
    (∀ j ∈ qsWriteIndices m arr, j < cap)
    ∧ (∃ arr2 : List JValue, ∃ m2 : TMapExpr,
        cap < arr2.length ∧ cap ∈ qsWriteIndices m2 arr2) := by
  constructor
  · intro j hj
    unfold qsWriteIndices at hj
    obtain ⟨w, hw, rfl⟩ := List.mem_map.mp hj
    have hlt := qsWritesAux_lt m arr 0 w hw
    omega
  · refine ⟨List.replicate (cap + 1) qsResolvedEntry, qsMap1, ?_, ?_⟩
    · simp
    · unfold qsWriteIndices
      rw [qsWriteIndices_replicate]
      simp [List.mem_range'_1]

/-- Witness for C10 at capacity 4 with a two-entry resolved array: all write
indices are below 4, and some five-entry array reaches index 4. -/
theorem spec_C10_witness :
    (List.replicate 2 qsResolvedEntry).length ≤ 4
    ∧ ((∀ j ∈ qsWriteIndices qsMap1 (List.replicate 2 qsResolvedEntry), j < 4)
      ∧ (∃ arr2 : List JValue, ∃ m2 : TMapExpr,
          4 < arr2.length ∧ 4 ∈ qsWriteIndices m2 arr2)) :=
  ⟨by decide, spec_C10 4 qsMap1 (List.replicate 2 qsResolvedEntry) (by decide)⟩
